import Mathlib

/-!
# Verification of the core of the Gradle migration tool

Shallow embedding, in Lean 4, of the migration-flow state machine and the
idempotent text-transformation engine of the `migration` repository
(`horizon_standard_migrator.py`, `wrapper_updater.py`, `settings_template.py`,
`gradle_parser.py`, `gradle_platform_migrator.py`), together with theorems
settling the frozen claims about it.

Conventions used throughout:
* file contents are modelled as `List Char` (Python `str`);
* the outcomes of external collaborators (git clone/branch/commit, the Gradle
  subprocess used for verification, the flow-specific rewrite bundles that
  touch the file system) are abstracted into a record of booleans (`Oracle`)
  consumed by the control-flow model of `process_repo`;
* Python regular-expression operations are hand-translated, for the concrete
  patterns the source uses, into explicit scanning functions whose behaviour
  (leftmost match, greedy quantifiers with the backtracking the pattern
  admits) mirrors the CPython `re` engine on those patterns.
-/

set_option maxRecDepth 8000

namespace Migration

/-! ## Orchestrator state machine (`process_repo`, horizon_standard_migrator.py:224-406)

`process_repo` sequences: clone (or work-dir reuse) → branch setup → optional
wrapper regeneration → flow detection → flow-specific rewrites → Jenkinsfile
updates → dependency verification with a single remediation retry → cleanup →
revert of the temporary networkTimeout bump → commit/push.  The model records
the sequence of collaborator invocations as a `List Step` plus the final
`success` flag of the run result. -/

/-- One collaborator invocation performed by `process_repo`. -/
inductive Step where
  | cloneRepo
  | branchSetup
  | platformMigration
  | catalogMigration
  | standardMigration
  | jenkinsUpdate
  | verifyDeps
  | wrapperRegen
  | revertTimeout
  | cleanupVerification
  | commitPush
deriving DecidableEq, Repr

/-- Abstracted outcomes of every external collaborator / file-system dependent
sub-step consulted by `process_repo`, plus its mode flags.  `verify1` and
`verify2` are the outcomes of the first and (if reached) second call to
`verify_dependency_resolution`; `platformOk` / `catalogOk` / `standardOk` are
the `success` flags returned by `run_gradle_platform_migration`,
`catalog_non_plasma_migration` and `standard_migration`. -/
structure Oracle where
  workDirReusable : Bool
  cloneOk : Bool
  branchOk : Bool
  regenWrapperFlag : Bool
  verifyOnly : Bool
  useCache : Bool
  isPlatform : Bool
  libsTomlExists : Bool
  platformOk : Bool
  catalogOk : Bool
  standardOk : Bool
  verify1 : Bool
  verify2 : Bool
  commitOk : Bool
deriving DecidableEq, Repr

/-- Result of one repository run: the final `success` flag of the result dict
and the ordered trace of collaborator invocations. -/
structure RunResult where
  success : Bool
  steps : List Step
deriving DecidableEq, Repr

/-- Platform flow, horizon_standard_migrator.py:261-299.  Note that the result
of `run_gradle_platform_migration` is stored in the details but never gates
anything: the flow proceeds to verification and commit regardless. -/
def platformFlow (o : Oracle) (t : List Step) : RunResult :=
  let t := t ++ [Step.platformMigration, Step.jenkinsUpdate, Step.verifyDeps]
  if o.verify1 then
    { success := o.commitOk
      steps := t ++ [Step.cleanupVerification, Step.revertTimeout, Step.commitPush] }
  else
    let t := t ++ [Step.wrapperRegen, Step.verifyDeps, Step.cleanupVerification]
    if o.verify2 then
      { success := o.commitOk, steps := t ++ [Step.revertTimeout, Step.commitPush] }
    else
      { success := false, steps := t }

/-- Version-catalog (non-plasma) flow, horizon_standard_migrator.py:300-352.
The whole verification-and-commit tail runs only when
`catalog_non_plasma_migration` reported success. -/
def catalogFlow (o : Oracle) (t : List Step) : RunResult :=
  let t := t ++ [Step.catalogMigration]
  if o.catalogOk then
    let t := t ++ [Step.jenkinsUpdate, Step.verifyDeps]
    if o.verify1 then
      { success := o.commitOk
        steps := t ++ [Step.cleanupVerification, Step.revertTimeout, Step.commitPush] }
    else
      let t := t ++ [Step.wrapperRegen, Step.verifyDeps, Step.cleanupVerification]
      if o.verify2 then
        { success := o.commitOk, steps := t ++ [Step.revertTimeout, Step.commitPush] }
      else
        { success := false, steps := t }
  else
    { success := false, steps := t }

/-- Standard flow, horizon_standard_migrator.py:353-406.  Faithful to the
source: in the retry branch the `return out` sits outside the `if not v2_ok`
guard, so after a first verification failure the run returns without a commit
even when the re-verification succeeded, and `out.success` (initialised to
`False`) is never set on that path. -/
def standardFlow (o : Oracle) (t : List Step) : RunResult :=
  let t := t ++ [Step.standardMigration]
  if o.standardOk then
    let t := t ++ [Step.jenkinsUpdate, Step.verifyDeps]
    if o.verify1 then
      { success := o.commitOk
        steps := t ++ [Step.cleanupVerification, Step.revertTimeout, Step.commitPush] }
    else
      { success := false
        steps := t ++ [Step.wrapperRegen, Step.verifyDeps, Step.cleanupVerification] }
  else
    { success := false, steps := t }

/-- Control-flow model of `process_repo`, horizon_standard_migrator.py:224-406. -/
def process_repo (o : Oracle) : RunResult :=
  if !o.workDirReusable && !o.cloneOk then
    { success := false, steps := [Step.cloneRepo] }
  else
    let t : List Step := if o.workDirReusable then [] else [Step.cloneRepo]
    let t := t ++ [Step.branchSetup]
    if !o.branchOk then
      { success := false, steps := t }
    else
      let t := t ++ (if o.regenWrapperFlag && !o.verifyOnly then [Step.wrapperRegen] else [])
      if o.verifyOnly then
        { success := o.verify1, steps := t ++ [Step.verifyDeps, Step.cleanupVerification] }
      else if o.isPlatform then
        platformFlow o t
      else if o.libsTomlExists then
        catalogFlow o t
      else
        standardFlow o t

/-! ### Derived observations on a run -/

/-- Working-tree verification artifacts: the injected init script
`initResolveAll.gradle` and the per-repository cache directory
`.gradle-user-home` (which may hold the copied operator credentials,
horizon_standard_migrator.py:474-523). -/
structure ArtifactState where
  initScript : Bool
  cacheDir : Bool
deriving DecidableEq, Repr

/-- How each step changes the artifact state: `verify_dependency_resolution`
always writes the init script and creates the cache directory when
`use_cache` is set (horizon_standard_migrator.py:470-476);
`cleanup_after_verification` deletes both (lines 721-736). -/
def applyStep (useCache : Bool) (s : ArtifactState) : Step → ArtifactState
  | Step.verifyDeps => { initScript := true, cacheDir := s.cacheDir || useCache }
  | Step.cleanupVerification => { initScript := false, cacheDir := false }
  | _ => s

/-- Holds (is `true`) iff every `commitPush` in the trace happens with both verification
artifacts absent from the working tree (`git add .` then stages neither). -/
def commitStagesClean (useCache : Bool) : ArtifactState → List Step → Bool
  | _, [] => true
  | s, st :: rest =>
    if st = Step.commitPush then
      (!s.initScript && !s.cacheDir) && commitStagesClean useCache (applyStep useCache s st) rest
    else
      commitStagesClean useCache (applyStep useCache s st) rest

/-- Holds (is `true`) iff every `commitPush` in the trace is preceded by some
`cleanup_after_verification` invocation. -/
def cleanupPrecedesCommit : Bool → List Step → Bool
  | _, [] => true
  | seen, st :: rest =>
    if st = Step.commitPush then
      seen && cleanupPrecedesCommit seen rest
    else
      cleanupPrecedesCommit (seen || st = Step.cleanupVerification) rest

/-- Whether the run invoked the commit-and-push collaborator. -/
def commitInvoked (o : Oracle) : Bool :=
  (process_repo o).steps.contains Step.commitPush

/-- Reading of "every required rewrite step of the chosen flow reported
success": the
flow-level success flag of the rewrite bundle the chosen flow ran. -/
def rewriteStepsOk (o : Oracle) : Bool :=
  if o.isPlatform then o.platformOk
  else if o.libsTomlExists then o.catalogOk
  else o.standardOk

/-- Reading of "a dependency-verification attempt (the first attempt, or the
single retry after remediation) reported success". -/
def verificationOk (o : Oracle) : Bool :=
  o.verify1 || o.verify2

/-- Number of occurrences of a step in the trace. -/
def stepCount (o : Oracle) (st : Step) : Nat :=
  ((process_repo o).steps.filter (fun x => x = st)).length

/-! ### Concrete runs used by the orchestrator claims -/

/-- A Platform-flow run whose rewrite bundle reported failure
(`run_gradle_platform_migration` returned `success=False`, e.g. because the
catalog has no `[libraries]` section) while verification and commit succeed. -/
def oPlatformRewriteFail : Oracle :=
  { workDirReusable := true, cloneOk := true, branchOk := true,
    regenWrapperFlag := false, verifyOnly := false, useCache := true,
    isPlatform := true, libsTomlExists := true, platformOk := false,
    catalogOk := true, standardOk := true, verify1 := true, verify2 := true,
    commitOk := true }

/-- A Standard-flow run where everything succeeds at the first attempt. -/
def oStandardHappy : Oracle :=
  { workDirReusable := true, cloneOk := true, branchOk := true,
    regenWrapperFlag := false, verifyOnly := false, useCache := true,
    isPlatform := false, libsTomlExists := false, platformOk := true,
    catalogOk := true, standardOk := true, verify1 := true, verify2 := true,
    commitOk := true }

/-- A Standard-flow run where verification fails both the first attempt and
the retry. -/
def oStandardDoubleFail : Oracle :=
  { workDirReusable := true, cloneOk := true, branchOk := true,
    regenWrapperFlag := false, verifyOnly := false, useCache := true,
    isPlatform := false, libsTomlExists := false, platformOk := true,
    catalogOk := true, standardOk := true, verify1 := false, verify2 := false,
    commitOk := true }

/-- A Standard-flow run where the first verification fails and the
re-verification after remediation succeeds. -/
def oStandardRetryOk : Oracle :=
  { workDirReusable := true, cloneOk := true, branchOk := true,
    regenWrapperFlag := false, verifyOnly := false, useCache := true,
    isPlatform := false, libsTomlExists := false, platformOk := true,
    catalogOk := true, standardOk := true, verify1 := false, verify2 := true,
    commitOk := true }

/-- A Platform-flow run where the first verification fails and the
re-verification after remediation succeeds. -/
def oPlatformRetryOk : Oracle :=
  { workDirReusable := true, cloneOk := true, branchOk := true,
    regenWrapperFlag := false, verifyOnly := false, useCache := true,
    isPlatform := true, libsTomlExists := true, platformOk := true,
    catalogOk := true, standardOk := true, verify1 := false, verify2 := true,
    commitOk := true }

/-! ### Claim C1 -/

/-- C1 (counterexample).  The claim says commit_push is invoked only if every
required rewrite step of the chosen flow reported success.  In the Platform
flow `process_repo` never consults the success flag of
`run_gradle_platform_migration`: here the rewrite bundle reported failure, yet commit_push is invoked and
the run result is success. -/
theorem c1_commit_gating_cex :
    commitInvoked oPlatformRewriteFail = true ∧
    rewriteStepsOk oPlatformRewriteFail = false ∧
    (process_repo oPlatformRewriteFail).success = true := by
  decide

set_option maxHeartbeats 4000000 in
/-- C1 (amended).  For every run of `process_repo`: commit_push is invoked
only if a dependency-verification attempt (first attempt or the single retry)
reported success, and — in the Standard and VersionCatalog flows, though not
in the Platform flow — only if the rewrite bundle of the flow reported success;
and for a run where verification fails both the first attempt and the retry,
commit_push is never invoked and the run result has success=false. -/
theorem c1_commit_gating : ∀ (o : Oracle),
    (commitInvoked o = true →
      verificationOk o = true ∧ (o.isPlatform = false → rewriteStepsOk o = true)) ∧
    (o.verify1 = false → o.verify2 = false →
      commitInvoked o = false ∧ (process_repo o).success = false) := by
  intro o
  obtain ⟨a, b, c, d, e, f, g, h, i, j, k, l, m, n⟩ := o
  revert a b c d e f g h i j k l m n
  decide

/-- C1 (witness): the amended gating theorem applied to a committing Standard
run and to a double-verification-failure run. -/
theorem c1_commit_gating_witness :
    verificationOk oStandardHappy = true ∧
    rewriteStepsOk oStandardHappy = true ∧
    commitInvoked oStandardDoubleFail = false ∧
    (process_repo oStandardDoubleFail).success = false := by
  obtain ⟨h1, h2⟩ := (c1_commit_gating oStandardHappy).1 (by decide)
  have h3 := (c1_commit_gating oStandardDoubleFail).2 (by decide) (by decide)
  exact ⟨h1, h2 (by decide), h3.1, h3.2⟩

/-! ### Claim C2 -/

/-- C2 (code evaluation at the failing input).  In the Standard flow, after a
first verification failure exactly one remediation and one re-verification do
run, but even when the re-verification succeeds the run returns without
invoking commit_push and with success=false — the `return out` at
horizon_standard_migrator.py:381 sits outside the `if not v2_ok` guard.  The
Platform flow on the same outcomes proceeds to commit, showing the Standard
flow has an early return contradicting the design followed by its sibling
flows. -/
theorem c2_standard_retry_no_commit :
    stepCount oStandardRetryOk Step.verifyDeps = 2 ∧
    stepCount oStandardRetryOk Step.wrapperRegen = 1 ∧
    commitInvoked oStandardRetryOk = false ∧
    (process_repo oStandardRetryOk).success = false ∧
    stepCount oPlatformRetryOk Step.verifyDeps = 2 ∧
    stepCount oPlatformRetryOk Step.wrapperRegen = 1 ∧
    commitInvoked oPlatformRetryOk = true ∧
    (process_repo oPlatformRetryOk).success = true := by
  decide

/-! ### Claim C10 -/

set_option maxHeartbeats 4000000 in
/-- C10.  On every execution path of `process_repo` that reaches commit_push,
`cleanup_after_verification` has already run, and at each commit_push the
injected init script `initResolveAll.gradle` and the credential-holding cache
directory `.gradle-user-home` are absent from the working tree, so `git add .`
never stages the verification-time credential files. -/
theorem c10_cleanup_before_commit : ∀ (o : Oracle),
    commitStagesClean o.useCache ⟨false, false⟩ (process_repo o).steps = true ∧
    cleanupPrecedesCommit false (process_repo o).steps = true := by
  intro o
  obtain ⟨a, b, c, d, e, f, g, h, i, j, k, l, m, n⟩ := o
  revert a b c d e f g h i j k l m n
  decide

/-! ## Python string primitives

Hand-translations of the CPython behaviours the source relies on, over
`List Char`. -/

/-- Python `\s` / `str.strip` whitespace (ASCII range, which is all the
inputs of the source use). -/
def pyIsSpace (c : Char) : Bool :=
  c = ' ' || c = '\t' || c = '\n' || c = '\r' || c = '\x0b' || c = '\x0c'

/-- Length of the maximal leading whitespace run (the unique boundary a greedy
`\s*` followed by a non-whitespace literal can stop at). -/
def countSpaces : List Char → Nat
  | [] => 0
  | c :: rest => if pyIsSpace c then countSpaces rest + 1 else 0

/-- Case-insensitive prefix test (pattern given in lower case; Python `re.I`
on the ASCII patterns the source uses). -/
def startsWithCI : List Char → List Char → Bool
  | [], _ => true
  | _ :: _, [] => false
  | p :: ps, c :: cs => (p = c.toLower) && startsWithCI ps cs

/-! ## Block Editor (brace-balanced block location/removal)

Translation of the scanning loops of `remove_plasma_nexus_block`
(horizon_standard_migrator.py:919-969), `remove_wrapper_block` (lines
149-197) and `GradlePlatformMigrator._remove_block`
(gradle_platform_migrator.py:360-379). -/

/-- One step of the depth counter of the brace-scanning loops. -/
def depthStep (d : Int) (c : Char) : Int :=
  if c = '{' then d + 1 else if c = '}' then d - 1 else d

/-- Running depth after consuming a list of characters. -/
def foldDepth (d : Int) (l : List Char) : Int :=
  l.foldl depthStep d

/-- Brace scan of the source (`for i in range(brace_start, len(content))` with
the depth counter): first absolute index at which a `}` brings the depth to
zero, scanning the suffix `l` whose first element sits at absolute index
`i`. -/
def scanClose : List Char → Int → Nat → Option Nat
  | [], _, _ => none
  | c :: rest, d, i =>
    let d1 := depthStep d c
    if c = '}' ∧ d1 = 0 then some i else scanClose rest d1 (i + 1)

/-- Unterminated block, in the sense of the claim: starting at the opening brace
(the head of `l`), the running depth never returns to zero at a closing
brace before end-of-text. -/
def NoMatchingClose (l : List Char) : Prop :=
  ∀ n : Nat, n < l.length → ¬(l.get? n = some '}' ∧ foldDepth 0 (l.take (n + 1)) = 0)

/-- Keyword `kw` at the head of `cs`, then `\s*`, then `{`: offset of that brace. -/
def braceAfter (kw : List Char) (cs : List Char) : Option Nat :=
  if kw.isPrefixOf cs then
    match (cs.drop kw.length).drop (countSpaces (cs.drop kw.length)) with
    | '{' :: _ => some (kw.length + countSpaces (cs.drop kw.length))
    | _ => none
  else none

/-- Case-insensitive variant of `braceAfter` (for the `(?is)` pattern of
`remove_plasma_nexus_block`). -/
def braceAfterCI (kw : List Char) (cs : List Char) : Option Nat :=
  if startsWithCI kw cs then
    match (cs.drop kw.length).drop (countSpaces (cs.drop kw.length)) with
    | '{' :: _ => some (kw.length + countSpaces (cs.drop kw.length))
    | _ => none
  else none

/-- Leftmost match of the pattern `(?is)(?:gradle\.)?allprojects\s*\x7b` in
the suffix whose head is at absolute index `idx`: returns (match start,
absolute index of the opening brace).  The optional group is tried greedily
first, exactly as the regex engine does. -/
def searchPlasma : List Char → Nat → Option (Nat × Nat)
  | [], _ => none
  | cs@(_ :: rest), idx =>
    match braceAfterCI ("gradle.allprojects").toList cs with
    | some b => some (idx, idx + b)
    | none =>
      match braceAfterCI ("allprojects").toList cs with
      | some b => some (idx, idx + b)
      | none => searchPlasma rest (idx + 1)

/-- Leftmost match of the (case-sensitive, unanchored) pattern
`kw\s*\x7b`: returns (match start, absolute index of the opening brace).
Used by `GradlePlatformMigrator._remove_block`. -/
def searchKeywordBrace (kw : List Char) : List Char → Nat → Option (Nat × Nat)
  | [], _ => none
  | cs@(_ :: rest), idx =>
    match braceAfter kw cs with
    | some b => some (idx, idx + b)
    | none => searchKeywordBrace kw rest (idx + 1)

/-- Result record of the block-removing rewriters (`removed`,
`removed_bytes`, `removed_count`, and the rewritten file content). -/
structure RemoveResult where
  content : List Char
  removed : Bool
  removed_bytes : Nat
  removed_count : Nat
deriving DecidableEq, Repr

/-! ### Bounds of the scanners (needed for termination of the removal loops) -/

theorem countSpaces_le (l : List Char) : countSpaces l ≤ l.length := by
  induction l with
  | nil => simp [countSpaces]
  | cons c rest ih =>
    simp only [countSpaces, List.length_cons]
    split <;> omega

theorem startsWithCI_length : ∀ (p cs : List Char), startsWithCI p cs = true → p.length ≤ cs.length := by
  intro p
  induction p with
  | nil => simp
  | cons x xs ih =>
    intro cs h
    cases cs with
    | nil => simp [startsWithCI] at h
    | cons c rest =>
      simp only [startsWithCI, Bool.and_eq_true] at h
      have := ih rest h.2
      simp only [List.length_cons]
      omega

theorem braceAfter_lt {kw cs : List Char} {b : Nat} (h : braceAfter kw cs = some b) :
    b < cs.length := by
  unfold braceAfter at h
  split at h
  · rename_i hpre
    split at h
    · rename_i c rest hdrop
      have hne : (cs.drop kw.length).drop (countSpaces (cs.drop kw.length)) ≠ [] := by
        rw [hdrop]; simp
      have hlen : ¬((cs.drop kw.length).length ≤ countSpaces (cs.drop kw.length)) := by
        intro hle
        exact hne (List.drop_eq_nil_of_le hle)
      have hkw : kw.length ≤ cs.length := ( List.isPrefixOf_iff_prefix.mp hpre).length_le
      simp only [Option.some.injEq] at h
      simp only [List.length_drop] at hlen
      omega
    · exact absurd h (by simp)
  · exact absurd h (by simp)

theorem braceAfterCI_lt {kw cs : List Char} {b : Nat} (h : braceAfterCI kw cs = some b) :
    b < cs.length := by
  unfold braceAfterCI at h
  split at h
  · rename_i hpre
    split at h
    · rename_i c rest hdrop
      have hne : (cs.drop kw.length).drop (countSpaces (cs.drop kw.length)) ≠ [] := by
        rw [hdrop]; simp
      have hlen : ¬((cs.drop kw.length).length ≤ countSpaces (cs.drop kw.length)) := by
        intro hle
        exact hne (List.drop_eq_nil_of_le hle)
      have hkw : kw.length ≤ cs.length := startsWithCI_length kw cs hpre
      simp only [Option.some.injEq] at h
      simp only [List.length_drop] at hlen
      omega
    · exact absurd h (by simp)
  · exact absurd h (by simp)

theorem scanClose_bounds : ∀ (l : List Char) (d : Int) (i j : Nat),
    scanClose l d i = some j → i ≤ j ∧ j < i + l.length := by
  intro l
  induction l with
  | nil => intro d i j h; simp [scanClose] at h
  | cons c rest ih =>
    intro d i j h
    simp only [scanClose] at h
    split at h
    · simp only [Option.some.injEq] at h
      subst h
      simp
    · have := ih _ _ _ h
      simp only [List.length_cons]
      omega

theorem searchPlasma_bounds : ∀ (cs : List Char) (idx s b : Nat),
    searchPlasma cs idx = some (s, b) → idx ≤ s ∧ s ≤ b ∧ b < idx + cs.length := by
  intro cs
  induction cs with
  | nil => intro idx s b h; simp [searchPlasma] at h
  | cons c rest ih =>
    intro idx s b h
    simp only [searchPlasma] at h
    split at h
    · rename_i boff hb
      simp only [Option.some.injEq, Prod.mk.injEq] at h
      obtain ⟨rfl, rfl⟩ := h
      have := braceAfterCI_lt hb
      refine ⟨le_refl _, by omega, by simpa using this⟩
    · split at h
      · rename_i boff hb
        simp only [Option.some.injEq, Prod.mk.injEq] at h
        obtain ⟨rfl, rfl⟩ := h
        have := braceAfterCI_lt hb
        refine ⟨le_refl _, by omega, by simpa using this⟩
      · have := ih _ _ _ h
        simp only [List.length_cons]
        omega

theorem searchKeywordBrace_bounds : ∀ (kw cs : List Char) (idx s b : Nat),
    searchKeywordBrace kw cs idx = some (s, b) → idx ≤ s ∧ s ≤ b ∧ b < idx + cs.length := by
  intro kw cs
  induction cs with
  | nil => intro idx s b h; simp [searchKeywordBrace] at h
  | cons c rest ih =>
    intro idx s b h
    simp only [searchKeywordBrace] at h
    split at h
    · rename_i boff hb
      simp only [Option.some.injEq, Prod.mk.injEq] at h
      obtain ⟨rfl, rfl⟩ := h
      have := braceAfter_lt hb
      refine ⟨le_refl _, by omega, by simpa using this⟩
    · have := ih _ _ _ h
      simp only [List.length_cons]
      omega

/-! ### The three block removers -/

/-- Loop body of `remove_plasma_nexus_block`: repeatedly find the leftmost
`(?:gradle\.)?allprojects\s*\x7b` match (searching from the start each time),
remove the balanced block, and stop (`break`) on no match or on an
unterminated block. -/
def removePlasmaLoop (cs : List Char) (removedAny : Bool) (bytes cnt : Nat) : RemoveResult :=
  match h1 : searchPlasma cs 0 with
  | none => ⟨cs, removedAny, bytes, cnt⟩
  | some (s, b) =>
    match h2 : scanClose (cs.drop b) 0 b with
    | none => ⟨cs, removedAny, bytes, cnt⟩
    | some e =>
      removePlasmaLoop (cs.take s ++ cs.drop (e + 1)) true (bytes + (e + 1 - s)) (cnt + 1)
termination_by cs.length
decreasing_by
  have hs := searchPlasma_bounds cs 0 s b h1
  have he := scanClose_bounds (cs.drop b) 0 b e h2
  simp only [List.length_append, List.length_take, List.length_drop] at *
  omega

/-- Translation of `remove_plasma_nexus_block` (horizon_standard_migrator.py:919-969):
removes every `gradle.allprojects \x7b ... \x7d` / `allprojects \x7b ... \x7d`
block from the settings file content. -/
def remove_plasma_nexus_block (cs : List Char) : RemoveResult :=
  removePlasmaLoop cs false 0 0

/-- Leftmost match of `(?m)^\s*wrapper\s*\x7b` in the suffix whose head sits
at absolute index `idx`, with `prev` the character preceding the suffix
(`none` at text start): returns (match start, absolute opening-brace index).
The `^` anchor holds at text start or right after a newline; the `\s*` then
extends greedily (possibly across further newlines). -/
def searchWrapperAux : List Char → Nat → Option Char → Option (Nat × Nat)
  | [], _, _ => none
  | l@(c :: rest), idx, prev =>
    if prev = none ∨ prev = some '\n' then
      let w := countSpaces l
      match braceAfter ("wrapper").toList (l.drop w) with
      | some b => some (idx, idx + w + b)
      | none => searchWrapperAux rest (idx + 1) (some c)
    else searchWrapperAux rest (idx + 1) (some c)

/-- Search (`pattern.search(content, pos)`) for the wrapper-block pattern. -/
def searchWrapperFrom (cs : List Char) (pos : Nat) : Option (Nat × Nat) :=
  searchWrapperAux (cs.drop pos) pos (if pos = 0 then none else cs.get? (pos - 1))

theorem searchWrapperAux_bounds : ∀ (l : List Char) (idx : Nat) (prev : Option Char) (s b : Nat),
    searchWrapperAux l idx prev = some (s, b) → idx ≤ s ∧ s ≤ b ∧ b < idx + l.length := by
  intro l
  induction l with
  | nil => intro idx prev s b h; simp [searchWrapperAux] at h
  | cons c rest ih =>
    intro idx prev s b h
    simp only [searchWrapperAux] at h
    split at h
    · split at h
      · rename_i boff hb
        simp only [Option.some.injEq, Prod.mk.injEq] at h
        obtain ⟨rfl, rfl⟩ := h
        have hblt := braceAfter_lt hb
        have hw := countSpaces_le (c :: rest)
        simp only [List.length_drop] at hblt
        simp only [List.length_cons] at *
        refine ⟨le_refl _, by omega, by omega⟩
      · have := ih _ _ _ _ h
        simp only [List.length_cons]
        omega
    · have := ih _ _ _ _ h
      simp only [List.length_cons]
      omega

theorem searchWrapperFrom_bounds {cs : List Char} {pos s b : Nat}
    (h : searchWrapperFrom cs pos = some (s, b)) :
    pos ≤ s ∧ s ≤ b ∧ b < pos + (cs.length - pos) := by
  have := searchWrapperAux_bounds (cs.drop pos) pos
    (if pos = 0 then none else cs.get? (pos - 1)) s b h
  simpa [List.length_drop] using this

/-- Loop body of `remove_wrapper_block`: on an unterminated block, skip past
the match (`pos = m.end()`, i.e. one past the opening brace) and keep
searching; on a removal, resume the search at the removal point. -/
def removeWrapperLoop (cs : List Char) (pos : Nat) (removedAny : Bool) (bytes cnt : Nat) :
    RemoveResult :=
  match h1 : searchWrapperFrom cs pos with
  | none => ⟨cs, removedAny, bytes, cnt⟩
  | some (s, b) =>
    match h2 : scanClose (cs.drop b) 0 b with
    | none => removeWrapperLoop cs (b + 1) removedAny bytes cnt
    | some e =>
      removeWrapperLoop (cs.take s ++ cs.drop (e + 1)) s true (bytes + (e + 1 - s)) (cnt + 1)
termination_by (cs.length, cs.length + 1 - pos)
decreasing_by
  · have hs := searchWrapperFrom_bounds h1
    apply Prod.Lex.right
    omega
  · have hs := searchWrapperFrom_bounds h1
    have he := scanClose_bounds (cs.drop b) 0 b e h2
    apply Prod.Lex.left
    simp only [List.length_append, List.length_take, List.length_drop] at *
    omega

/-- Translation of `remove_wrapper_block` (horizon_standard_migrator.py:149-197): removes
every line-anchored `wrapper \x7b ... \x7d` block from the root build file. -/
def remove_wrapper_block (cs : List Char) : RemoveResult :=
  removeWrapperLoop cs 0 false 0 0

/-- Translation of `GradlePlatformMigrator._remove_block` (gradle_platform_migrator.py:
360-379): removes the first balanced `kw \x7b ... \x7d` block, returning the
text unchanged when there is no match or the block is unterminated. -/
def remove_block (kw : List Char) (cs : List Char) : List Char :=
  match searchKeywordBrace kw cs 0 with
  | none => cs
  | some (s, b) =>
    match scanClose (cs.drop b) 0 b with
    | none => cs
    | some e => cs.take s ++ cs.drop (e + 1)

/-! ### Semantics of the brace scan -/

theorem foldDepth_cons (d : Int) (c : Char) (l : List Char) :
    foldDepth d (c :: l) = foldDepth (depthStep d c) l := rfl

/-- The scan of the source finds no closing index exactly when the running
depth never returns to zero at a `\x7d` before end-of-text — the notion of an
unterminated block used by the claim. -/
theorem scanClose_none_iff : ∀ (l : List Char) (d : Int) (i : Nat),
    scanClose l d i = none ↔
      ∀ n : Nat, n < l.length → ¬(l.get? n = some '}' ∧ foldDepth d (l.take (n + 1)) = 0) := by
  intro l
  induction l with
  | nil => intro d i; simp [scanClose]
  | cons c rest ih =>
    intro d i
    simp only [scanClose]
    by_cases hc : (c = '}' ∧ depthStep d c = 0)
    · rw [if_pos hc]
      constructor
      · intro h
        exact absurd h (by simp)
      · intro hAll
        exact absurd
          ⟨by simp [hc.1], by simpa [List.take_succ_cons, foldDepth_cons, foldDepth] using hc.2⟩
          (hAll 0 (by simp))
    · rw [if_neg hc, ih (depthStep d c) (i + 1)]
      constructor
      · intro H n hn
        match n with
        | 0 =>
          intro ⟨hget, hdep⟩
          simp only [List.get?] at hget
          refine hc ⟨by injection hget, ?_⟩
          simpa [List.take_succ_cons, foldDepth_cons, foldDepth] using hdep
        | Nat.succ m =>
          intro ⟨hget, hdep⟩
          refine H m (by simpa using hn) ⟨by simpa using hget, ?_⟩
          rw [List.take_succ_cons, foldDepth_cons] at hdep
          exact hdep
      · intro H n hn
        intro ⟨hget, hdep⟩
        refine H (n + 1) (by simpa using hn) ⟨by simpa using hget, ?_⟩
        rw [List.take_succ_cons, foldDepth_cons]
        exact hdep

/-! ### Unfolding lemmas for the removal loops -/

theorem removePlasmaLoop_none {cs : List Char} {r : Bool} {by0 cn : Nat}
    (h : searchPlasma cs 0 = none) :
    removePlasmaLoop cs r by0 cn = ⟨cs, r, by0, cn⟩ := by
  rw [removePlasmaLoop]
  split
  · rfl
  · rename_i s b heq
    rw [h] at heq
    cases heq

theorem removePlasmaLoop_unterminated {cs : List Char} {r : Bool} {by0 cn s b : Nat}
    (h1 : searchPlasma cs 0 = some (s, b)) (h2 : scanClose (cs.drop b) 0 b = none) :
    removePlasmaLoop cs r by0 cn = ⟨cs, r, by0, cn⟩ := by
  rw [removePlasmaLoop]
  split
  · rfl
  · rename_i s1 b1 heq
    rw [h1] at heq
    injection heq with heq1
    injection heq1 with hs hb
    subst hs
    subst hb
    split
    · rfl
    · rename_i e1 heq2
      rw [h2] at heq2
      cases heq2

theorem removePlasmaLoop_found {cs : List Char} {r : Bool} {by0 cn s b e : Nat}
    (h1 : searchPlasma cs 0 = some (s, b)) (h2 : scanClose (cs.drop b) 0 b = some e) :
    removePlasmaLoop cs r by0 cn =
      removePlasmaLoop (cs.take s ++ cs.drop (e + 1)) true (by0 + (e + 1 - s)) (cn + 1) := by
  conv_lhs => rw [removePlasmaLoop]
  split
  · rename_i heq
    rw [h1] at heq
    cases heq
  · rename_i s1 b1 heq
    rw [h1] at heq
    injection heq with heq1
    injection heq1 with hs hb
    subst hs
    subst hb
    split
    · rename_i heq2
      rw [h2] at heq2
      cases heq2
    · rename_i e1 heq2
      rw [h2] at heq2
      injection heq2 with he
      subst he
      rfl

theorem removeWrapperLoop_none {cs : List Char} {pos : Nat} {r : Bool} {by0 cn : Nat}
    (h : searchWrapperFrom cs pos = none) :
    removeWrapperLoop cs pos r by0 cn = ⟨cs, r, by0, cn⟩ := by
  rw [removeWrapperLoop]
  split
  · rfl
  · rename_i s b heq
    rw [h] at heq
    cases heq

theorem removeWrapperLoop_skip {cs : List Char} {pos : Nat} {r : Bool} {by0 cn s b : Nat}
    (h1 : searchWrapperFrom cs pos = some (s, b)) (h2 : scanClose (cs.drop b) 0 b = none) :
    removeWrapperLoop cs pos r by0 cn = removeWrapperLoop cs (b + 1) r by0 cn := by
  conv_lhs => rw [removeWrapperLoop]
  split
  · rename_i heq
    rw [h1] at heq
    cases heq
  · rename_i s1 b1 heq
    rw [h1] at heq
    injection heq with heq1
    injection heq1 with hs hb
    subst hs
    subst hb
    split
    · rfl
    · rename_i e1 heq2
      rw [h2] at heq2
      cases heq2

theorem removeWrapperLoop_found {cs : List Char} {pos : Nat} {r : Bool} {by0 cn s b e : Nat}
    (h1 : searchWrapperFrom cs pos = some (s, b)) (h2 : scanClose (cs.drop b) 0 b = some e) :
    removeWrapperLoop cs pos r by0 cn =
      removeWrapperLoop (cs.take s ++ cs.drop (e + 1)) s true (by0 + (e + 1 - s)) (cn + 1) := by
  conv_lhs => rw [removeWrapperLoop]
  split
  · rename_i heq
    rw [h1] at heq
    cases heq
  · rename_i s1 b1 heq
    rw [h1] at heq
    injection heq with heq1
    injection heq1 with hs hb
    subst hs
    subst hb
    split
    · rename_i heq2
      rw [h2] at heq2
      cases heq2
    · rename_i e1 heq2
      rw [h2] at heq2
      injection heq2 with he
      subst he
      rfl

/-- If every wrapper-pattern match reachable by the loop is unterminated, the
loop never edits the content.  (Search positions used by the loop never
exceed the content length, so the hypothesis is a bounded quantifier.) -/
theorem removeWrapperLoop_all_unterminated (cs : List Char)
    (H : ∀ p, p ≤ cs.length → ∀ s b, searchWrapperFrom cs p = some (s, b) →
      scanClose (cs.drop b) 0 b = none) :
    ∀ pos, pos ≤ cs.length → ∀ r by0 cn,
      removeWrapperLoop cs pos r by0 cn = ⟨cs, r, by0, cn⟩ := by
  have main : ∀ m pos, cs.length + 1 - pos ≤ m → pos ≤ cs.length → ∀ r by0 cn,
      removeWrapperLoop cs pos r by0 cn = ⟨cs, r, by0, cn⟩ := by
    intro m
    induction m with
    | zero => intro pos hm hpos; omega
    | succ m ih =>
      intro pos hm hpos r by0 cn
      cases h : searchWrapperFrom cs pos with
      | none => exact removeWrapperLoop_none h
      | some sb =>
        obtain ⟨s, b⟩ := sb
        have hb := searchWrapperFrom_bounds h
        have h2 := H pos hpos s b h
        rw [removeWrapperLoop_skip h h2]
        exact ih (b + 1) (by omega) (by omega) r by0 cn
  exact fun pos hpos r by0 cn => main (cs.length + 1) pos (by omega) hpos r by0 cn

/-! ### Concrete inputs for the block-removal claim -/

/-- A settings file with a nested `gradle.allprojects` block. -/
def plasmaNestedInput : List Char :=
  ("pre\ngradle.allprojects \x7b inner \x7b \x7d more \x7b \x7d \x7d\ntail").toList

/-- The nested-block input with the whole outer block removed. -/
def plasmaNestedOutput : List Char := ("pre\n\ntail").toList

/-- A root build file with a nested `wrapper` block. -/
def wrapperNestedInput : List Char :=
  ("x\nwrapper \x7b a \x7b \x7d b \x7b \x7d \x7d\ny").toList

/-- The nested-wrapper input with the whole outer block removed. -/
def wrapperNestedOutput : List Char := ("x\n\ny").toList

/-- A settings file with a nested `dependencyResolutionManagement` block. -/
def blockNestedInput : List Char :=
  ("top\ndependencyResolutionManagement \x7b repositories \x7b \x7d other \x7b \x7d \x7d\nrest").toList

/-- The nested `dependencyResolutionManagement` input after removal. -/
def blockNestedOutput : List Char := ("top\n\nrest").toList

/-- An `allprojects` block with an opening brace that is never closed. -/
def plasmaUnterminatedInput : List Char := ("allprojects \x7b x").toList

/-- A `wrapper` block with an opening brace that is never closed. -/
def wrapperUnterminatedInput : List Char := ("wrapper \x7b x \x7b \x7d").toList

/-- A `pluginManagement` block with an opening brace that is never closed. -/
def blockUnterminatedInput : List Char := ("pluginManagement \x7b x").toList

/-! ### Claim C5 -/

/-- C5.  The balanced-delimiter block removers scan nested braces to the
matching close and remove the full outer span: on the nested examples
(`outer \x7b inner \x7b \x7d more \x7b \x7d \x7d`) each remover deletes the
whole outer block, not up to the first inner close.  And whenever the matched
block is unterminated (its running brace depth never returns to zero before
end-of-text), each remover treats it as no match and leaves the text
unchanged. -/
theorem c5_balanced_block_removal :
    remove_plasma_nexus_block plasmaNestedInput =
      ⟨plasmaNestedOutput, true, 41, 1⟩ ∧
    remove_wrapper_block wrapperNestedInput =
      ⟨wrapperNestedOutput, true, 23, 1⟩ ∧
    remove_block ("dependencyResolutionManagement").toList blockNestedInput =
      blockNestedOutput ∧
    (∀ cs s b, searchPlasma cs 0 = some (s, b) →
      (∀ n : Nat, n < (cs.drop b).length →
        ¬((cs.drop b).get? n = some '}' ∧ foldDepth 0 ((cs.drop b).take (n + 1)) = 0)) →
      remove_plasma_nexus_block cs = ⟨cs, false, 0, 0⟩) ∧
    (∀ kw cs s b, searchKeywordBrace kw cs 0 = some (s, b) →
      (∀ n : Nat, n < (cs.drop b).length →
        ¬((cs.drop b).get? n = some '}' ∧ foldDepth 0 ((cs.drop b).take (n + 1)) = 0)) →
      remove_block kw cs = cs) ∧
    (∀ cs, (∀ p, p ≤ cs.length → ∀ s b, searchWrapperFrom cs p = some (s, b) →
      (∀ n : Nat, n < (cs.drop b).length →
        ¬((cs.drop b).get? n = some '}' ∧ foldDepth 0 ((cs.drop b).take (n + 1)) = 0))) →
      remove_wrapper_block cs = ⟨cs, false, 0, 0⟩) := by
  refine ⟨?_, ?_, ?_, ?_, ?_, ?_⟩
  · show removePlasmaLoop plasmaNestedInput false 0 0 = _
    rw [removePlasmaLoop_found (s := 4) (b := 23) (e := 44) (by decide) (by decide)]
    rw [show plasmaNestedInput.take 4 ++ plasmaNestedInput.drop 45 = plasmaNestedOutput
      from by decide]
    rw [removePlasmaLoop_none (by decide)]
  · show removeWrapperLoop wrapperNestedInput 0 false 0 0 = _
    rw [removeWrapperLoop_found (s := 2) (b := 10) (e := 24) (by decide) (by decide)]
    rw [show wrapperNestedInput.take 2 ++ wrapperNestedInput.drop 25 = wrapperNestedOutput
      from by decide]
    rw [removeWrapperLoop_none (by decide)]
  · decide
  · intro cs s b h1 h2
    have h2s : scanClose (cs.drop b) 0 b = none := (scanClose_none_iff _ 0 b).mpr h2
    exact removePlasmaLoop_unterminated h1 h2s
  · intro kw cs s b h1 h2
    have h2s : scanClose (cs.drop b) 0 b = none := (scanClose_none_iff _ 0 b).mpr h2
    unfold remove_block
    rw [h1]
    simp only [h2s]
  · intro cs H
    refine removeWrapperLoop_all_unterminated cs ?_ 0 (by omega) false 0 0
    intro p hp s b h
    exact (scanClose_none_iff _ 0 b).mpr (H p hp s b h)

/-- Bool-valued check that a search outcome, if any, points at an
unterminated block. -/
def matchUnterminated (cs : List Char) : Option (Nat × Nat) → Bool
  | none => true
  | some (_, b) => (scanClose (cs.drop b) 0 b).isNone

/-- C5 (witness): the unterminated-block clauses applied to concrete
unterminated inputs, whose texts are left unchanged. -/
theorem c5_balanced_block_removal_witness :
    remove_plasma_nexus_block plasmaUnterminatedInput =
      ⟨plasmaUnterminatedInput, false, 0, 0⟩ ∧
    remove_block ("pluginManagement").toList blockUnterminatedInput = blockUnterminatedInput ∧
    remove_wrapper_block wrapperUnterminatedInput =
      ⟨wrapperUnterminatedInput, false, 0, 0⟩ := by
  obtain ⟨-, -, -, hp, hk, hw⟩ := c5_balanced_block_removal
  refine ⟨hp plasmaUnterminatedInput 0 12 (by decide) (by decide), ?_, ?_⟩
  · exact hk (("pluginManagement").toList) blockUnterminatedInput 0 17 (by decide) (by decide)
  · have hall : ∀ p, p ≤ wrapperUnterminatedInput.length →
        matchUnterminated wrapperUnterminatedInput
          (searchWrapperFrom wrapperUnterminatedInput p) = true := by
      decide
    refine hw wrapperUnterminatedInput ?_
    intro p hp s b hsb
    have h := hall p hp
    rw [hsb] at h
    simp only [matchUnterminated, Option.isNone_iff_eq_none] at h
    exact (scanClose_none_iff _ 0 b).mp h

/-! ## Wrapper updater (`update_gradle_wrapper`, wrapper_updater.py:5-104)

The function parses `distributionUrl` out of a properties file, extracts the
Gradle version and archive kind from it, enforces the 6.9.2 floor, rebuilds
the URL against the Artifactory base (preserving `\:` escaping), and manages
the `networkTimeout` property.  The regex operations are translated per
pattern; note that the replacement template `r"\\1600000\\2"` at
wrapper_updater.py:94 denotes the literal ten characters `\1600000\2` (each
`\\` is an escaped backslash), not backreferences. -/

/-- Python `str.strip()` (both ends, whitespace). -/
def pyStrip (l : List Char) : List Char :=
  ((l.dropWhile pyIsSpace).reverse.dropWhile pyIsSpace).reverse

/-- Value of a run of decimal digits (Python `int` on the digit group). -/
def natOfDigits (l : List Char) : Nat :=
  l.foldl (fun n c => n * 10 + (c.toNat - 48)) 0

/-- Length of the maximal leading run of decimal digits (`\d+`). -/
def countDigits (cs : List Char) : Nat :=
  (cs.takeWhile Char.isDigit).length

/-- Length of the maximal leading run of `[\d.]` characters. -/
def countVerChars (cs : List Char) : Nat :=
  (cs.takeWhile (fun c => c.isDigit || c = '.')).length

/-- First index at or after `i` holding a newline, else the text length
(the end of the line containing position `i`). -/
def lineEndFrom (cs : List Char) (i : Nat) : Nat :=
  i + ((cs.drop i).takeWhile (fun c => decide (c ≠ '\n'))).length

/-- Last index of `l` satisfying `f`, if any. -/
def lastIdxSat (l : List Char) (f : Char → Bool) : Option Nat :=
  match l.reverse.findIdx? f with
  | some k => some (l.length - 1 - k)
  | none => none

/-- Whether position `p` is a line start (`^` in `re.MULTILINE`). -/
def lineStartAt (cs : List Char) (p : Nat) : Bool :=
  decide (p = 0 ∨ cs.get? (p - 1) = some '\n')

/-- Length of the maximal all-whitespace run ending just before index `j`. -/
def wsBackLen (cs : List Char) (j : Nat) : Nat :=
  (((cs.take j).reverse).takeWhile pyIsSpace).length

/-- First line start in `[p, p + rem]`. -/
def firstLineStartAux (cs : List Char) : Nat → Nat → Option Nat
  | p, 0 => if lineStartAt cs p then some p else none
  | p, Nat.succ rem => if lineStartAt cs p then some p else firstLineStartAux cs (p + 1) rem

/-- Leftmost anchor for a `^\s*`-prefixed match of a keyword occurrence at
index `j`, searching from `pos`: the earliest line start `p ≥ pos` from which
pure whitespace reaches `j`.  (Any line start inside the whitespace run ending
at `j` qualifies; the regex engine picks the least such start position.) -/
def anchorOk (cs : List Char) (j pos : Nat) : Option Nat :=
  firstLineStartAux cs (max (j - wsBackLen cs j) pos) (j - max (j - wsBackLen cs j) pos)

/-- Scan of start positions for a line-anchored keyword pattern: for each
occurrence of `kw` (in order), the occurrence matches if it has an anchor and
its pattern tail parses (`tailp`, returning a pair of positions/values whose
meaning is pattern-specific).  Mirrors the left-to-right scan of the engine with
failed tails resuming at later occurrences. -/
def findAnchoredAux (kw cs : List Char) (pos : Nat) (tailp : Nat → Option (Nat × Nat)) :
    List Char → Nat → Option (Nat × Nat × Nat)
  | [], _ => none
  | suf@(_ :: rest), j =>
    if kw.isPrefixOf suf then
      match anchorOk cs j pos, tailp j with
      | some p, some r => some (p, r.1, r.2)
      | _, _ => findAnchoredAux kw cs pos tailp rest (j + 1)
    else findAnchoredAux kw cs pos tailp rest (j + 1)

/-- Tail of `^\s*distributionUrl\s*=\s*(.+)$` after the keyword occurrence at
`j`: skip whitespace, require `=`, skip whitespace greedily; the group `(.+)`
then runs from the first non-whitespace character to its line end (when the
rest of the text is pure whitespace, the greedy `\s*` backtracks to leave the
final non-newline character run for `.+`).  Returns (value start, value
end). -/
def distTail (cs : List Char) (j : Nat) : Option (Nat × Nat) :=
  let i1 := j + ("distributionUrl").toList.length
  let ieq := i1 + countSpaces (cs.drop i1)
  if cs.get? ieq = some '=' then
    let i2 := ieq + 1
    let q := i2 + countSpaces (cs.drop i2)
    if q < cs.length then
      some (q, lineEndFrom cs q)
    else
      match lastIdxSat (cs.drop i2) (fun c => decide (c ≠ '\n')) with
      | some k => some (i2 + k, lineEndFrom cs (i2 + k))
      | none => none
  else none

/-- The first `(?m)^\s*distributionUrl\s*=\s*(.+)$` match of the content:
(value start, value end).  Both regex uses in the source (the search and the
replace) match the same span; the replaced output is
`take (value start) ++ new value ++ drop (value end)` because the captured
prefix group is reused verbatim. -/
def findDistUrl (cs : List Char) : Option (Nat × Nat) :=
  (findAnchoredAux (("distributionUrl").toList) cs 0 (distTail cs) cs 0).map (fun r => r.2)

/-- Tail of `^\s*networkTimeout\s*=\s*(\d+)\s*$` after the keyword occurrence
at `j`: whitespace, `=`, whitespace, a digit run, then trailing whitespace up
to a line end (end-of-text, or the furthest newline the greedy `\s*` can stop
before).  Returns (match end, parsed digit value). -/
def ntTail (cs : List Char) (j : Nat) : Option (Nat × Nat) :=
  let i1 := j + ("networkTimeout").toList.length
  let ieq := i1 + countSpaces (cs.drop i1)
  if cs.get? ieq = some '=' then
    let i2 := ieq + 1
    let q := i2 + countSpaces (cs.drop i2)
    let d := countDigits (cs.drop q)
    if d = 0 then none
    else
      let de := q + d
      let j2 := de + countSpaces (cs.drop de)
      if j2 = cs.length then some (cs.length, natOfDigits ((cs.take de).drop q))
      else
        match lastIdxSat ((cs.take j2).drop de) (fun c => decide (c = '\n')) with
        | some k => some (de + k, natOfDigits ((cs.take de).drop q))
        | none => none
  else none

/-- Regex search for `(?m)^\s*networkTimeout\s*=\s*(\d+)\s*$` from `pos`:
(match start, match end, parsed value). -/
def ntFind (cs : List Char) (pos : Nat) : Option (Nat × Nat × Nat) :=
  findAnchoredAux (("networkTimeout").toList) cs pos (ntTail cs) (cs.drop pos) pos

/-- Python substring containment (`needle in hay`). -/
def isSubstrOf (needle : List Char) : List Char → Bool
  | [] => needle.isEmpty
  | hay@(_ :: rest) => needle.isPrefixOf hay || isSubstrOf needle rest

/-- The ten literal characters the faulty replacement template
`r"\\1600000\\2"` produces. -/
def ntLit : List Char := ['\\', '1', '6', '0', '0', '0', '0', '0', '\\', '2']

/-! ### Bounds and the replace-all recursion -/

theorem lastIdxSat_lt {l : List Char} {f : Char → Bool} {k : Nat}
    (h : lastIdxSat l f = some k) : k < l.length := by
  unfold lastIdxSat at h
  split at h
  · rename_i k0 hfind
    have hne : l ≠ [] := by
      intro hnil
      subst hnil
      simp at hfind
    have : 0 < l.length := List.length_pos.mpr hne
    simp only [Option.some.injEq] at h
    omega
  · exact absurd h (by simp)

theorem get?_lt {cs : List Char} {n : Nat} {c : Char} (h : cs.get? n = some c) :
    n < cs.length := by
  by_contra hle
  rw [List.get?_eq_none.mpr (by omega)] at h
  cases h

theorem ntTail_bounds {cs : List Char} {j e x : Nat} (h : ntTail cs j = some (e, x)) :
    j < e ∧ e ≤ cs.length := by
  simp only [ntTail] at h
  split at h
  · rename_i heq
    have hieq := get?_lt heq
    split at h
    · exact absurd h (by simp)
    · rename_i hd
      split at h
      · rename_i hj2
        simp only [Option.some.injEq, Prod.mk.injEq] at h
        have h1 := countSpaces_le (cs.drop (j + ("networkTimeout").toList.length))
        omega
      · split at h
        · rename_i k hk
          have hklt := lastIdxSat_lt hk
          have h2 := countSpaces_le
            (cs.drop (j + ("networkTimeout").toList.length +
              countSpaces (cs.drop (j + ("networkTimeout").toList.length)) + 1 +
              countSpaces (cs.drop (j + ("networkTimeout").toList.length +
                countSpaces (cs.drop (j + ("networkTimeout").toList.length)) + 1)) +
              countDigits (cs.drop (j + ("networkTimeout").toList.length +
                countSpaces (cs.drop (j + ("networkTimeout").toList.length)) + 1 +
                countSpaces (cs.drop (j + ("networkTimeout").toList.length +
                  countSpaces (cs.drop (j + ("networkTimeout").toList.length)) + 1))))))
          simp only [Option.some.injEq, Prod.mk.injEq] at h
          simp only [List.length_drop, List.length_take] at hklt
          simp only [List.length_drop] at h2
          omega
        · exact absurd h (by simp)
  · exact absurd h (by simp)

theorem firstLineStartAux_bounds : ∀ (rem p p' : Nat) (cs : List Char),
    firstLineStartAux cs p rem = some p' → p ≤ p' ∧ p' ≤ p + rem := by
  intro rem
  induction rem with
  | zero =>
    intro p p' cs h
    simp only [firstLineStartAux] at h
    split at h
    · simp only [Option.some.injEq] at h
      omega
    · exact absurd h (by simp)
  | succ r ih =>
    intro p p' cs h
    simp only [firstLineStartAux] at h
    split at h
    · simp only [Option.some.injEq] at h
      omega
    · have := ih (p + 1) p' cs h
      omega

theorem anchorOk_bounds {cs : List Char} {j pos p : Nat} (hj : pos ≤ j)
    (h : anchorOk cs j pos = some p) : pos ≤ p ∧ p ≤ j := by
  unfold anchorOk at h
  have := firstLineStartAux_bounds _ _ _ _ h
  omega

theorem findAnchoredAux_bounds {kw cs : List Char} {pos : Nat}
    {tailp : Nat → Option (Nat × Nat)}
    (hT : ∀ j e x, tailp j = some (e, x) → j < e ∧ e ≤ cs.length) :
    ∀ (suf : List Char) (j s e x : Nat), pos ≤ j →
      findAnchoredAux kw cs pos tailp suf j = some (s, e, x) →
      pos ≤ s ∧ s < e ∧ e ≤ cs.length := by
  intro suf
  induction suf with
  | nil => intro j s e x hj h; simp [findAnchoredAux] at h
  | cons c rest ih =>
    intro j s e x hj h
    simp only [findAnchoredAux] at h
    split at h
    · split at h
      · rename_i p r hanch htail
        simp only [Option.some.injEq, Prod.mk.injEq] at h
        obtain ⟨rfl, rfl, rfl⟩ := h
        have ha := anchorOk_bounds hj hanch
        have ht := hT j r.1 r.2 (by rw [htail])
        exact ⟨ha.1, by omega, ht.2⟩
      · exact ih (j + 1) s e x (by omega) h
    · exact ih (j + 1) s e x (by omega) h

theorem ntFind_bounds {cs : List Char} {pos s e x : Nat}
    (h : ntFind cs pos = some (s, e, x)) : pos ≤ s ∧ s < e ∧ e ≤ cs.length := by
  exact findAnchoredAux_bounds (fun j e x ht => ntTail_bounds ht) (cs.drop pos) pos s e x
    (le_refl pos) h

/-- Translation of the multiline substitution on the networkTimeout pattern
(`re.sub` with pattern `(?m)^(\s*networkTimeout\s*=\s*)\d+(\s*)$` and raw
replacement template `\\1600000\\2`, wrapper_updater.py:94) scanning from
`pos`: every match is replaced by the literal `ntLit` (the
capture groups are NOT re-inserted — the template escapes its backslashes). -/
def ntSubFrom (cs : List Char) (pos : Nat) : List Char :=
  match h : ntFind cs pos with
  | none => cs.drop pos
  | some (s, e, _) => ((cs.take s).drop pos) ++ ntLit ++ ntSubFrom cs e
termination_by cs.length + 1 - pos
decreasing_by
  have := ntFind_bounds h
  omega

theorem ntSubFrom_none {cs : List Char} {pos : Nat} (h : ntFind cs pos = none) :
    ntSubFrom cs pos = cs.drop pos := by
  rw [ntSubFrom]
  split
  · rfl
  · rename_i s e x heq
    rw [h] at heq
    cases heq

theorem ntSubFrom_found {cs : List Char} {pos s e x : Nat}
    (h : ntFind cs pos = some (s, e, x)) :
    ntSubFrom cs pos = ((cs.take s).drop pos) ++ ntLit ++ ntSubFrom cs e := by
  conv_lhs => rw [ntSubFrom]
  split
  · rename_i heq
    rw [h] at heq
    cases heq
  · rename_i s1 e1 x1 heq
    rw [h] at heq
    injection heq with heq1
    injection heq1 with hs heq2
    injection heq2 with he hx
    subst hs
    subst he
    rfl

/-! ### Version extraction and the 6.9.2 floor -/

/-- Backtracking of the greedy `[\d.]+` group: try the version length `k`
from the maximal run downwards until the literal `-bin.zip` / `-all.zip`
(alternation tried in that order) follows. -/
def verKindAt (url : List Char) (i7 : Nat) : Nat → Option (List Char × List Char)
  | 0 => none
  | Nat.succ k0 =>
    if (("-bin.zip").toList).isPrefixOf (url.drop (i7 + (k0 + 1))) then
      some ((url.take (i7 + (k0 + 1))).drop i7, ("bin").toList)
    else if (("-all.zip").toList).isPrefixOf (url.drop (i7 + (k0 + 1))) then
      some ((url.take (i7 + (k0 + 1))).drop i7, ("all").toList)
    else verKindAt url i7 k0

/-- Scan for `gradle-([\d.]+)-(bin|all)\.zip` occurrences left to right. -/
def extractVKAux (url : List Char) : List Char → Nat → Option (List Char × List Char)
  | [], _ => none
  | suf@(_ :: rest), i =>
    if (("gradle-").toList).isPrefixOf suf then
      match verKindAt url (i + 7) (countVerChars (url.drop (i + 7))) with
      | some vk => some vk
      | none => extractVKAux url rest (i + 1)
    else extractVKAux url rest (i + 1)

/-- Translation of the `re.search` on pattern `gradle-([\d\.]+)-(bin|all)\.zip`
over `old_url`: the (version, archive kind) embedded in a distribution URL. -/
def extractVersionKind (url : List Char) : Option (List Char × List Char) :=
  extractVKAux url url 0

/-- Python int parsing of every dot-separated piece of `v`: `none` models the
`ValueError` that `int` raises on an empty piece (caught in the source by
`except Exception: pass`). -/
def pyParseVer (v : List Char) : Option (List Int) :=
  let ps := v.splitOn '.'
  if ps.all (fun p => decide (p ≠ []) && p.all Char.isDigit) then
    some (ps.map (fun p => (natOfDigits p : Int)))
  else none

/-- Python strict `<` on integer lists: lexicographic, a strict prefix being
smaller. -/
def pyListLt : List Int → List Int → Bool
  | [], [] => false
  | [], _ :: _ => true
  | _ :: _, [] => false
  | x :: xs, y :: ys => if x < y then true else if y < x then false else pyListLt xs ys

/-- Value of `parse_ver` at the string 6.9.2, the minimum supported wrapper
version. -/
def verFloor : List Int := [6, 9, 2]

/-- Python list comparison is exactly lexicographic order. -/
theorem pyListLt_iff_lex : ∀ (a b : List Int), pyListLt a b = true ↔ List.Lex (· < ·) a b := by
  intro a
  induction a with
  | nil =>
    intro b
    cases b with
    | nil => simp only [pyListLt]; constructor <;> intro h <;> [cases h; cases h]
    | cons y ys => simp only [pyListLt]; exact ⟨fun _ => List.Lex.nil, fun _ => trivial⟩
  | cons x xs ih =>
    intro b
    cases b with
    | nil =>
      simp only [pyListLt]
      constructor
      · intro h; cases h
      · intro h; cases h
    | cons y ys =>
      simp only [pyListLt]
      by_cases hxy : x < y
      · simp only [if_pos hxy]
        exact ⟨fun _ => List.Lex.rel hxy, fun _ => trivial⟩
      · rw [if_neg hxy]
        by_cases hyx : y < x
        · simp only [if_pos hyx]
          constructor
          · intro h; cases h
          · intro h
            cases h with
            | rel h => exact absurd h hxy
            | cons h => exact absurd hyx (lt_irrefl x)
        · rw [if_neg hyx]
          have hx : x = y := le_antisymm (not_lt.mp hyx) (not_lt.mp hxy)
          subst hx
          rw [ih ys]
          constructor
          · intro h; exact List.Lex.cons h
          · intro h
            cases h with
            | rel h => exact absurd h (lt_irrefl x)
            | cons h => exact h

/-! ### `update_gradle_wrapper` itself -/

/-- The rebuilt distribution URL: the f-string interpolating
`artifactory_base`, `version` and `dist_type` into
`/libs-release/com/baml/plat/gradle/wrapper/gradle-VERSION-KIND.zip`. -/
def buildNewUrl (base v k : List Char) : List Char :=
  base ++ ("/libs-release/com/baml/plat/gradle/wrapper/gradle-").toList ++ v ++
    ('-' :: k) ++ (".zip").toList

/-- Python replace of every colon in `new_url` by backslash-colon. -/
def escapeColons : List Char → List Char
  | [] => []
  | c :: rest => if c = ':' then '\\' :: ':' :: escapeColons rest else c :: escapeColons rest

/-- The property-file form of the new URL: colon-escaped iff the old URL used
the `\:` convention. -/
def newUrlProp (old_url new_url : List Char) : List Char :=
  if isSubstrOf (['\\', ':']) old_url then escapeColons new_url else new_url

/-- Result record of `update_gradle_wrapper` (result dict plus the rewritten
file content; on failure the file is left unwritten, modelled by returning
the input content). -/
structure WrapperResult where
  success : Bool
  content : List Char
  old_url : Option (List Char)
  new_url : Option (List Char)
  enforced_default : Bool
  network_timeout_prev : Option Nat
  network_timeout_new : Option Nat
  network_timeout_added : Bool
  network_timeout_changed : Bool
  errors : List (List Char)
deriving DecidableEq, Repr

/-- Translation of `update_gradle_wrapper` (wrapper_updater.py:5-104) over the file content
(the file-missing error path lives outside this pure core). -/
def update_gradle_wrapper (content : List Char)
    (artifactory_base : List Char := ("https://artifactory.org.com/artifactory").toList) :
    WrapperResult :=
  match findDistUrl content with
  | none =>
    { success := false, content := content, old_url := none, new_url := none,
      enforced_default := false, network_timeout_prev := none, network_timeout_new := none,
      network_timeout_added := false, network_timeout_changed := false,
      errors := [("distributionUrl not found").toList] }
  | some (q, le) =>
    let old_url := pyStrip ((content.take le).drop q)
    match extractVersionKind old_url with
    | none =>
      { success := false, content := content, old_url := some old_url, new_url := none,
        enforced_default := false, network_timeout_prev := none, network_timeout_new := none,
        network_timeout_added := false, network_timeout_changed := false,
        errors := [("Unable to extract Gradle version from distributionUrl").toList] }
    | some (v, k) =>
      let enforced := match pyParseVer v with
        | some l => pyListLt l verFloor
        | none => false
      let new_url := buildNewUrl artifactory_base
        (if enforced then ("6.9.2").toList else v)
        (if enforced then ("all").toList else k)
      let mid := content.take q ++ newUrlProp old_url new_url ++ content.drop le
      match ntFind mid 0 with
      | none =>
        { success := true
          content := (if mid.getLast? = some '\n' then mid else mid ++ ['\n']) ++
            ("networkTimeout=600000\n").toList
          old_url := some old_url, new_url := some new_url, enforced_default := enforced,
          network_timeout_prev := none, network_timeout_new := some 600000,
          network_timeout_added := true, network_timeout_changed := false, errors := [] }
      | some (_, _, prev) =>
        if prev < 600000 then
          { success := true, content := ntSubFrom mid 0,
            old_url := some old_url, new_url := some new_url, enforced_default := enforced,
            network_timeout_prev := some prev, network_timeout_new := some 600000,
            network_timeout_added := false, network_timeout_changed := true, errors := [] }
        else
          { success := true, content := mid,
            old_url := some old_url, new_url := some new_url, enforced_default := enforced,
            network_timeout_prev := some prev, network_timeout_new := none,
            network_timeout_added := false, network_timeout_changed := false, errors := [] }

/-- The default `artifactory_base` argument of `update_gradle_wrapper`. -/
def defaultArtifactoryBase : List Char := ("https://artifactory.org.com/artifactory").toList

/-- Shape of `update_gradle_wrapper` on the networkTimeout-present-below-
default path, in terms of the intermediate distributionUrl-rewritten content
`mid`. -/
theorem update_gradle_wrapper_eq_changed
    {content base : List Char} {q t : Nat} {v k : List Char} {L : List Int}
    {m : List Char} {s e p : Nat}
    (hm : findDistUrl content = some (q, t))
    (hv : extractVersionKind (pyStrip ((content.take t).drop q)) = some (v, k))
    (hp : pyParseVer v = some L)
    (hmid : m = content.take q ++
      newUrlProp (pyStrip ((content.take t).drop q))
        (buildNewUrl base (if pyListLt L verFloor then ("6.9.2").toList else v)
          (if pyListLt L verFloor then ("all").toList else k)) ++
      content.drop t)
    (hnt : ntFind m 0 = some (s, e, p))
    (hlt : p < 600000) :
    update_gradle_wrapper content base =
      { success := true
        content := ntSubFrom m 0
        old_url := some (pyStrip ((content.take t).drop q))
        new_url := some (buildNewUrl base
          (if pyListLt L verFloor then ("6.9.2").toList else v)
          (if pyListLt L verFloor then ("all").toList else k))
        enforced_default := pyListLt L verFloor
        network_timeout_prev := some p
        network_timeout_new := some 600000
        network_timeout_added := false
        network_timeout_changed := true
        errors := [] } := by
  subst hmid
  simp only [update_gradle_wrapper, hm, hv, hp, hnt, if_pos hlt]

/-! ### Concrete wrapper files -/

/-- A wrapper properties file with an escaped old URL and a below-default
networkTimeout. -/
def c4PresentInput : List Char :=
  ("distributionUrl=https\\://old.host/dists/gradle-7.5.0-bin.zip\nnetworkTimeout=300000\n").toList

/-- State of `c4PresentInput` after the distributionUrl substitution, before the
networkTimeout handling. -/
def c4Mid : List Char :=
  ("distributionUrl=https\\://artifactory.org.com/artifactory/libs-release/com/baml/plat/gradle/wrapper/gradle-7.5.0-bin.zip\nnetworkTimeout=300000\n").toList

/-- What the code actually writes for `c4PresentInput`: the networkTimeout
line (including its newline) is replaced by the literal `\1600000\2`. -/
def c4PresentOutput : List Char :=
  ("distributionUrl=https\\://artifactory.org.com/artifactory/libs-release/com/baml/plat/gradle/wrapper/gradle-7.5.0-bin.zip\n\\1600000\\2").toList

/-- Applying the updater a second time to `c4PresentOutput`: the corrupted
line no longer parses, so a fresh `networkTimeout=600000` line is appended. -/
def c4SecondOutput : List Char :=
  ("distributionUrl=https\\://artifactory.org.com/artifactory/libs-release/com/baml/plat/gradle/wrapper/gradle-7.5.0-bin.zip\n\\1600000\\2\nnetworkTimeout=600000\n").toList

/-- The same wrapper file without a networkTimeout property. -/
def c4AbsentInput : List Char :=
  ("distributionUrl=https\\://old.host/dists/gradle-7.5.0-bin.zip\n").toList

/-- Result of rewriting `c4AbsentInput`: the default networkTimeout line is appended. -/
def c4AbsentOutput : List Char :=
  ("distributionUrl=https\\://artifactory.org.com/artifactory/libs-release/com/baml/plat/gradle/wrapper/gradle-7.5.0-bin.zip\nnetworkTimeout=600000\n").toList

/-- The rebuilt (unescaped) URL embedding 7.5.0-bin. -/
def c4NewUrl750 : List Char :=
  ("https://artifactory.org.com/artifactory/libs-release/com/baml/plat/gradle/wrapper/gradle-7.5.0-bin.zip").toList

/-- Evaluation of the updater on the below-default-timeout file (shared by
the idempotence and networkTimeout claims). -/
theorem updateWrapper_on_presentInput :
    update_gradle_wrapper c4PresentInput defaultArtifactoryBase =
      { success := true, content := c4PresentOutput,
        old_url := some (("https\\://old.host/dists/gradle-7.5.0-bin.zip").toList),
        new_url := some c4NewUrl750, enforced_default := false,
        network_timeout_prev := some 300000, network_timeout_new := some 600000,
        network_timeout_added := false, network_timeout_changed := true, errors := [] } := by
  have hsub : ntSubFrom c4Mid 0 = c4PresentOutput := by
    rw [ntSubFrom_found (s := 120) (e := 142) (x := 300000) (by decide)]
    rw [ntSubFrom_none (by decide)]
    decide
  rw [update_gradle_wrapper_eq_changed (q := 16) (t := 60)
    (v := ("7.5.0").toList) (k := ("bin").toList) (L := [7, 5, 0]) (m := c4Mid)
    (s := 120) (e := 142) (p := 300000)
    (by decide) (by decide) (by decide) (by decide) (by decide) (by decide), hsub]
  decide

/-! ### Claim C4 -/

/-- C4 (code evaluation).  When networkTimeout is absent it is appended with
the 600000 default and the addition is recorded.  But when it is present
below the default, the line is NOT rewritten in place to 600000: the
replacement template `r"\\1600000\\2"` (wrapper_updater.py:94) inserts the
literal characters `\1600000\2` in place of the whole line, while the outcome
still records `network_timeout_changed=True`, `prev=300000`, `new=600000` —
the code contradicts its own recorded outcome (and the expectations of
`revert_wrapper_network_timeout`). -/
theorem c4_network_timeout_management :
    update_gradle_wrapper c4AbsentInput defaultArtifactoryBase =
      { success := true, content := c4AbsentOutput,
        old_url := some (("https\\://old.host/dists/gradle-7.5.0-bin.zip").toList),
        new_url := some c4NewUrl750, enforced_default := false,
        network_timeout_prev := none, network_timeout_new := some 600000,
        network_timeout_added := true, network_timeout_changed := false, errors := [] } ∧
    (update_gradle_wrapper c4PresentInput defaultArtifactoryBase).network_timeout_changed
      = true ∧
    (update_gradle_wrapper c4PresentInput defaultArtifactoryBase).network_timeout_prev
      = some 300000 ∧
    isSubstrOf (("networkTimeout=600000").toList)
      (update_gradle_wrapper c4PresentInput defaultArtifactoryBase).content = false ∧
    isSubstrOf ntLit
      (update_gradle_wrapper c4PresentInput defaultArtifactoryBase).content = true := by
  rw [updateWrapper_on_presentInput]
  refine ⟨by decide, by decide, by decide, by decide, by decide⟩

/-! ### Claim C3 -/

/-- C3 (code evaluation).  Idempotence fails for `update_gradle_wrapper` on a
file whose networkTimeout was initially present below the default: the first
application corrupts the line to `\1600000\2`, so the second application no
longer finds the property and appends a fresh line — the bytes differ and the
second outcome reports an addition rather than a no-change result.  (By
contrast, a block remover re-applied to its own output reports
`removed=false` and leaves the bytes unchanged.) -/
theorem c3_idempotence_violation :
    (update_gradle_wrapper c4PresentInput defaultArtifactoryBase).success = true ∧
    (update_gradle_wrapper c4PresentInput defaultArtifactoryBase).content
      = c4PresentOutput ∧
    (update_gradle_wrapper c4PresentOutput defaultArtifactoryBase).content
      = c4SecondOutput ∧
    (update_gradle_wrapper c4PresentOutput defaultArtifactoryBase).network_timeout_added
      = true ∧
    c4SecondOutput ≠ c4PresentOutput ∧
    remove_plasma_nexus_block plasmaNestedOutput = ⟨plasmaNestedOutput, false, 0, 0⟩ := by
  rw [updateWrapper_on_presentInput]
  refine ⟨by decide, by decide, by decide, by decide, by decide, ?_⟩
  exact removePlasmaLoop_none (by decide)

/-! ### Claim C7 -/

/-- A wrapper file whose URL uses `\:` escaping and embeds 6.8.2-bin
(below the floor). -/
def c7EscapedInput : List Char :=
  ("distributionBase=GRADLE_USER_HOME\ndistributionUrl=https\\://nexus.host\\:8081/repo/gradle-6.8.2-bin.zip\n").toList

/-- Rewritten `c7EscapedInput`: version forced to 6.9.2-all, URL rebuilt
escaped against the Artifactory base, networkTimeout appended. -/
def c7EscapedOutput : List Char :=
  ("distributionBase=GRADLE_USER_HOME\ndistributionUrl=https\\://artifactory.org.com/artifactory/libs-release/com/baml/plat/gradle/wrapper/gradle-6.9.2-all.zip\nnetworkTimeout=600000\n").toList

/-- The rebuilt (unescaped) URL embedding the forced 6.9.2-all. -/
def c7NewUrl692 : List Char :=
  ("https://artifactory.org.com/artifactory/libs-release/com/baml/plat/gradle/wrapper/gradle-6.9.2-all.zip").toList

/-- A wrapper file with an unescaped URL embedding 7.5.0-bin (at/above the
floor). -/
def c7PlainInput : List Char :=
  ("distributionUrl=https://nexus.host/repo/gradle-7.5.0-bin.zip\n").toList

/-- Rewritten `c7PlainInput`: version and kind preserved, URL rebuilt
unescaped. -/
def c7PlainOutput : List Char :=
  ("distributionUrl=https://artifactory.org.com/artifactory/libs-release/com/baml/plat/gradle/wrapper/gradle-7.5.0-bin.zip\nnetworkTimeout=600000\n").toList

/-- C7.  Floor enforcement: whenever the updater parses a version out of the
distributionUrl, the rebuilt URL embeds 6.9.2 with kind `all` exactly when
the parsed version is lexicographically (numerically) below 6.9.2, and
otherwise preserves the parsed version and kind; `enforced_default` records
precisely that condition.  The concrete runs pin the end-to-end behaviour:
6.8.2-bin is rewritten to 6.9.2-all with `\:` escaping preserved, 7.5.0-bin
is preserved and left unescaped, both rebuilt against the Artifactory
base. -/
theorem c7_wrapper_floor_enforcement :
    (∀ (content base : List Char) (q le : Nat) (v k : List Char) (L : List Int),
      findDistUrl content = some (q, le) →
      extractVersionKind (pyStrip ((content.take le).drop q)) = some (v, k) →
      pyParseVer v = some L →
      ((update_gradle_wrapper content base).success = true ∧
       (update_gradle_wrapper content base).old_url =
         some (pyStrip ((content.take le).drop q)) ∧
       (update_gradle_wrapper content base).new_url =
         some (buildNewUrl base (if pyListLt L verFloor then ("6.9.2").toList else v)
           (if pyListLt L verFloor then ("all").toList else k)) ∧
       ((update_gradle_wrapper content base).enforced_default = true ↔
         List.Lex (· < ·) L [6, 9, 2]))) ∧
    update_gradle_wrapper c7EscapedInput defaultArtifactoryBase =
      { success := true, content := c7EscapedOutput,
        old_url := some (("https\\://nexus.host\\:8081/repo/gradle-6.8.2-bin.zip").toList),
        new_url := some c7NewUrl692, enforced_default := true,
        network_timeout_prev := none, network_timeout_new := some 600000,
        network_timeout_added := true, network_timeout_changed := false, errors := [] } ∧
    update_gradle_wrapper c7PlainInput defaultArtifactoryBase =
      { success := true, content := c7PlainOutput,
        old_url := some (("https://nexus.host/repo/gradle-7.5.0-bin.zip").toList),
        new_url := some c4NewUrl750, enforced_default := false,
        network_timeout_prev := none, network_timeout_new := some 600000,
        network_timeout_added := true, network_timeout_changed := false, errors := [] } := by
  refine ⟨?_, by decide, by decide⟩
  intro content base q le v k L hm hv hp
  simp only [update_gradle_wrapper, hm, hv, hp]
  cases hnt : ntFind (content.take q ++
      newUrlProp (pyStrip ((content.take le).drop q))
        (buildNewUrl base (if pyListLt L verFloor then ("6.9.2").toList else v)
          (if pyListLt L verFloor then ("all").toList else k)) ++
      content.drop le) 0 with
  | none =>
    simp only [hnt]
    exact ⟨by trivial, by trivial, by trivial,
      by simpa [verFloor] using pyListLt_iff_lex L verFloor⟩
  | some t =>
    obtain ⟨s, e, prev⟩ := t
    simp only [hnt]
    by_cases hlt : prev < 600000
    · simp only [if_pos hlt]
      exact ⟨by trivial, by trivial, by trivial,
        by simpa [verFloor] using pyListLt_iff_lex L verFloor⟩
    · simp only [if_neg hlt]
      exact ⟨by trivial, by trivial, by trivial,
        by simpa [verFloor] using pyListLt_iff_lex L verFloor⟩

/-- C7 (witness): the floor theorem applied to the concrete 6.8.2 (below
floor, escaped) and 7.5.0 (above floor) files. -/
theorem c7_wrapper_floor_enforcement_witness :
    ((update_gradle_wrapper c7EscapedInput defaultArtifactoryBase).new_url =
      some (buildNewUrl defaultArtifactoryBase (("6.9.2").toList) (("all").toList)) ∧
     List.Lex (· < ·) ([6, 8, 2] : List Int) [6, 9, 2]) ∧
    ((update_gradle_wrapper c7PlainInput defaultArtifactoryBase).new_url =
      some (buildNewUrl defaultArtifactoryBase (("7.5.0").toList) (("bin").toList)) ∧
     ¬ List.Lex (· < ·) ([7, 5, 0] : List Int) [6, 9, 2]) := by
  have h1 := (c7_wrapper_floor_enforcement.1 c7EscapedInput defaultArtifactoryBase 50 101
    (("6.8.2").toList) (("bin").toList) [6, 8, 2] (by decide) (by decide) (by decide))
  have h2 := (c7_wrapper_floor_enforcement.1 c7PlainInput defaultArtifactoryBase 16 60
    (("7.5.0").toList) (("bin").toList) [7, 5, 0] (by decide) (by decide) (by decide))
  have hlex1 : List.Lex (· < ·) ([6, 8, 2] : List Int) [6, 9, 2] :=
    (pyListLt_iff_lex [6, 8, 2] [6, 9, 2]).mp (by decide)
  have hlex2 : ¬ List.Lex (· < ·) ([7, 5, 0] : List Int) [6, 9, 2] := by
    intro hcon
    have := (pyListLt_iff_lex [7, 5, 0] [6, 9, 2]).mpr (by simpa [verFloor] using hcon)
    simp [pyListLt] at this
  constructor
  · refine ⟨?_, hlex1⟩
    have := h1.2.2.1
    simpa [show pyListLt [6, 8, 2] verFloor = true from by decide] using this
  · refine ⟨?_, hlex2⟩
    have := h2.2.2.1
    simpa [show pyListLt [7, 5, 0] verFloor = false from by decide] using this


/-! ## Settings-file repository injection (`append_repositories_to_settings`,
settings_template.py:64-120)

The repository template is injected into `settings.gradle` unless the
normalized Artifactory base URL is already present.  Placement depends on the
presence of the substrings `dependencyResolutionManagement` and
`repositories \x7b` and on the first `(\s*)repositories\s*\x7b` match. -/

/-- Python `s.replace(old, new)` for a non-empty pattern (the source only
replaces the fixed base-URL string). -/
def pyReplace (old new : List Char) : List Char → List Char
  | [] => []
  | c :: rest =>
    if old ≠ [] ∧ old.isPrefixOf (c :: rest) then
      new ++ pyReplace old new ((c :: rest).drop old.length)
    else c :: pyReplace old new rest
termination_by s => s.length
decreasing_by
  · rename_i h
    have h1 : old.length ≠ 0 := by
      intro h0
      exact h.1 (List.length_eq_zero.mp h0)
    simp only [List.length_drop, List.length_cons]
    omega
  · simp

/-- Replacing a pattern by itself is the identity. -/
theorem pyReplace_self (old : List Char) : ∀ (s : List Char), pyReplace old old s = s := by
  have main : ∀ (n : Nat) (s : List Char), s.length ≤ n → pyReplace old old s = s := by
    intro n
    induction n with
    | zero =>
      intro s h
      cases s with
      | nil => rw [pyReplace]
      | cons c rest => simp at h
    | succ n ih =>
      intro s h
      cases s with
      | nil => rw [pyReplace]
      | cons c rest =>
        rw [pyReplace]
        split
        · rename_i hpre
          obtain ⟨t, ht⟩ := List.isPrefixOf_iff_prefix.mp hpre.2
          have hdrop : (c :: rest).drop old.length = t := by
            rw [← ht, List.drop_left]
          have hol : old.length ≠ 0 := by
            intro h0
            exact hpre.1 (List.length_eq_zero.mp h0)
          have hlen : old.length + t.length = rest.length + 1 := by
            have hc := congrArg List.length ht
            simpa [List.length_append] using hc
          have hsl : (c :: rest).length ≤ n + 1 := h
          simp only [List.length_cons] at hsl
          rw [hdrop, ih t (by omega), ht]
        · have hsl : (c :: rest).length ≤ n + 1 := h
          simp only [List.length_cons] at hsl
          rw [ih rest (by omega)]
  exact fun s => main s.length s (le_refl _)

def SETTINGS_GRADLE_TEMPLATE : List Char :=
  ("\n// Artifactory repositories for dependency resolution\nrepositories \x7b\n").toList ++
  ("    maven \x7b\n").toList ++
  ("        url = \x27https://artifactory.org.com/artifactory/libs-release\x27\n").toList ++
  ("        credentials \x7b\n").toList ++
  ("            username = project.findProperty(\"artifactory_user\") ?: System.getProperty(\"gradle.wrapperUser\")\n").toList ++
  ("            password = project.findProperty(\"artifactory_password\") ?: System.getProperty(\"gradle.wrapperPassword\")\n").toList ++
  ("        \x7d\n        authentication \x7b\n            basic(BasicAuthentication)\n").toList ++
  ("        \x7d\n    \x7d\n    maven \x7b\n").toList ++
  ("        url = \x27https://artifactory.org.com/artifactory/libs-snapshot\x27\n").toList ++
  ("        credentials \x7b\n").toList ++
  ("            username = project.findProperty(\"artifactory_user\") ?: System.getProperty(\"gradle.wrapperUser\")\n").toList ++
  ("            password = project.findProperty(\"artifactory_password\") ?: System.getProperty(\"gradle.wrapperPassword\")\n").toList ++
  ("        \x7d\n        authentication \x7b\n            basic(BasicAuthentication)\n").toList ++
  ("        \x7d\n    \x7d\n\x7d\n").toList

/-- Translation of `_normalize_base` (settings_template.py:64-66): strip trailing slashes,
then ensure the `/artifactory` suffix. -/
def normalize_base (url : List Char) : List Char :=
  let base := (url.reverse.dropWhile (fun c => decide (c = '/'))).reverse
  if (("/artifactory").toList).isSuffixOf base then base else base ++ ("/artifactory").toList

/-- Translation of `get_settings_template` (settings_template.py:68-70). -/
def get_settings_template (url : List Char) : List Char :=
  pyReplace (("https://artifactory.org.com/artifactory").toList) (normalize_base url)
    SETTINGS_GRADLE_TEMPLATE

/-- Leftmost match of `(\s*)repositories\s*\x7b`: (match start, keyword
index); the captured indent is the slice between them. -/
def findReposBlockAux (cs : List Char) : List Char → Nat → Option (Nat × Nat)
  | [], _ => none
  | suf@(_ :: rest), p =>
    match braceAfter (("repositories").toList) (suf.drop (countSpaces suf)) with
    | some _ => some (p, p + countSpaces suf)
    | none => findReposBlockAux cs rest (p + 1)

/-- Search for the pattern `(\s*)repositories\s*\x7b` over `content`. -/
def findReposBlock (cs : List Char) : Option (Nat × Nat) :=
  findReposBlockAux cs cs 0

/-- The whitespace-prefixed repositories-block pattern matches at `p`. -/
def ReposPatternAt (cs : List Char) (p : Nat) : Prop :=
  (braceAfter (("repositories").toList) (cs.drop (p + countSpaces (cs.drop p)))).isSome

theorem drop_add (cs : List Char) (a b : Nat) : cs.drop (a + b) = (cs.drop a).drop b := by
  rw [List.drop_drop]

/-- The function `findReposBlock` returns the leftmost pattern occurrence with its
indent span. -/
theorem findReposBlock_spec {cs : List Char} {p j : Nat}
    (h : findReposBlock cs = some (p, j)) :
    ReposPatternAt cs p ∧ j = p + countSpaces (cs.drop p) ∧
      ∀ p0, p0 < p → ¬ ReposPatternAt cs p0 := by
  have main : ∀ (suf : List Char) (q : Nat), suf = cs.drop q →
      findReposBlockAux cs suf q = some (p, j) →
      q ≤ p ∧ ReposPatternAt cs p ∧ j = p + countSpaces (cs.drop p) ∧
        ∀ p0, q ≤ p0 → p0 < p → ¬ ReposPatternAt cs p0 := by
    intro suf
    induction suf with
    | nil => intro q hq h0; simp [findReposBlockAux] at h0
    | cons c rest ih =>
      intro q hq h0
      simp only [findReposBlockAux] at h0
      have hw : cs.drop (q + countSpaces (cs.drop q)) =
          (c :: rest).drop (countSpaces (c :: rest)) := by
        rw [drop_add, ← hq]
      split at h0
      · rename_i v hb
        simp only [Option.some.injEq, Prod.mk.injEq] at h0
        obtain ⟨rfl, rfl⟩ := h0
        refine ⟨le_refl _, ?_, by rw [hq], fun p0 h1 h2 => absurd h1 (by omega)⟩
        unfold ReposPatternAt
        rw [hw, hb]
        simp
      · rename_i hb
        have hrest : rest = cs.drop (q + 1) := by
          rw [drop_add, ← hq]
          simp
        obtain ⟨h1, h2, h3, h4⟩ := ih (q + 1) hrest h0
        refine ⟨by omega, h2, h3, ?_⟩
        intro p0 hq0 hp0
        rcases Nat.eq_or_lt_of_le hq0 with heq | hlt
        · subst heq
          unfold ReposPatternAt
          rw [hw, hb]
          simp
        · exact h4 p0 hlt hp0
  have := main cs 0 (by simp) h
  exact ⟨this.2.1, this.2.2.1, fun p0 h0 => this.2.2.2 p0 (by omega) h0⟩

/-- Result of `append_repositories_to_settings`: the rewritten file content
and the returned boolean. -/
def append_repositories_to_settings (content url : List Char) : List Char × Bool :=
  if isSubstrOf (normalize_base url) content then (content, false)
  else if isSubstrOf (("dependencyResolutionManagement").toList) content then
    if isSubstrOf (("repositories \x7b").toList) content then
      match findReposBlock content with
      | some (p, j) =>
        (content.take p ++ pyStrip (get_settings_template url) ++ ("\n\n").toList ++
          ((content.take j).drop p) ++ content.drop p, true)
      | none => (content ++ ("\n\n").toList ++ pyStrip (get_settings_template url), true)
    else
      match lastIdxSat content (fun c => decide (c = '}')) with
      | some i =>
        (content.take i ++ ("\n    repositories \x7b").toList ++
          pyStrip (get_settings_template url) ++ ("\n    \x7d\n").toList ++
          content.drop i, true)
      | none =>
        (content ++ ("\n\ndependencyResolutionManagement \x7b\n    repositories \x7b").toList ++
          pyStrip (get_settings_template url) ++ ("\n    \x7d\n\x7d").toList, true)
  else (pyStrip (get_settings_template url) ++ ("\n\n").toList ++ content, true)

/-! ### Claim C8 -/

/-- With the default URL the base-URL replacement in the template is the
identity. -/
theorem settings_template_default :
    get_settings_template defaultArtifactoryBase = SETTINGS_GRADLE_TEMPLATE := by
  unfold get_settings_template
  rw [show normalize_base defaultArtifactoryBase =
    (("https://artifactory.org.com/artifactory").toList) from by decide]
  exact pyReplace_self _ _

/-- A settings file with a `dependencyResolutionManagement` construct but no
`repositories` block. -/
def c8NoReposInput : List Char :=
  ("dependencyResolutionManagement \x7b\n\x7d\n").toList

/-- A settings file with a `dependencyResolutionManagement` construct holding
a nested `repositories` block. -/
def c8NestedInput : List Char :=
  ("dependencyResolutionManagement \x7b\n    repositories \x7b\n    \x7d\n\x7d\n").toList

/-- A minimal settings file without any management construct. -/
def c8PlainInput : List Char := ("rootProject.name=demo\n").toList

/-- A settings file that already mentions the normalized base URL. -/
def c8PresentInput : List Char :=
  ("// https://artifactory.org.com/artifactory already\n").toList

/-- C8 (amended).  `append_repositories_to_settings` is a no-op returning
`false` exactly when the normalized base URL is already present; when
`dependencyResolutionManagement` and the substring `repositories \x7b` are
both present, the template is inserted immediately before the leftmost
whitespace-prefixed `repositories`-block occurrence (whose indent is
duplicated); when `dependencyResolutionManagement` is present without
`repositories \x7b`, a synthesized repositories block wrapping the template
is inserted before the last closing brace of the file; when
`dependencyResolutionManagement` is absent, the template is prepended.  The
base URL is always normalized to end in `/artifactory`. -/
theorem c8_settings_injection (content url : List Char) :
    (append_repositories_to_settings content url = (content, false) ↔
      isSubstrOf (normalize_base url) content = true) ∧
    (isSubstrOf (normalize_base url) content = false →
      isSubstrOf (("dependencyResolutionManagement").toList) content = true →
      isSubstrOf (("repositories \x7b").toList) content = true →
      ∀ p j, findReposBlock content = some (p, j) →
        ReposPatternAt content p ∧ (∀ p0, p0 < p → ¬ ReposPatternAt content p0) ∧
        append_repositories_to_settings content url =
          (content.take p ++ pyStrip (get_settings_template url) ++ ("\n\n").toList ++
            ((content.take j).drop p) ++ content.drop p, true)) ∧
    (isSubstrOf (normalize_base url) content = false →
      isSubstrOf (("dependencyResolutionManagement").toList) content = true →
      isSubstrOf (("repositories \x7b").toList) content = false →
      ∀ i, lastIdxSat content (fun c => decide (c = '}')) = some i →
        append_repositories_to_settings content url =
          (content.take i ++ ("\n    repositories \x7b").toList ++
            pyStrip (get_settings_template url) ++ ("\n    \x7d\n").toList ++
            content.drop i, true)) ∧
    (isSubstrOf (normalize_base url) content = false →
      isSubstrOf (("dependencyResolutionManagement").toList) content = false →
      append_repositories_to_settings content url =
        (pyStrip (get_settings_template url) ++ ("\n\n").toList ++ content, true)) ∧
    (("/artifactory").toList).isSuffixOf (normalize_base url) = true := by
  refine ⟨?_, ?_, ?_, ?_, ?_⟩
  · by_cases h1 : isSubstrOf (normalize_base url) content = true
    · constructor
      · intro _
        exact h1
      · intro _
        unfold append_repositories_to_settings
        rw [if_pos h1]
    · constructor
      · intro hEq
        exfalso
        unfold append_repositories_to_settings at hEq
        rw [if_neg h1] at hEq
        split at hEq
        · split at hEq
          · split at hEq <;> simp at hEq
          · split at hEq <;> simp at hEq
        · simp at hEq
      · intro h
        exact absurd h h1
  · intro h1 h2 h3 p j hpj
    obtain ⟨hp, hjj, hmin⟩ := findReposBlock_spec hpj
    refine ⟨hp, hmin, ?_⟩
    unfold append_repositories_to_settings
    rw [if_neg (by rw [h1]; simp), if_pos h2, if_pos h3, hpj]
  · intro h1 h2 h3 i hi
    unfold append_repositories_to_settings
    rw [if_neg (by rw [h1]; simp), if_pos h2, if_neg (by rw [h3]; simp), hi]
  · intro h1 h2
    unfold append_repositories_to_settings
    rw [if_neg (by rw [h1]; simp), if_neg (by rw [h2]; simp)]
  · simp only [normalize_base]
    split
    · rename_i hsuf
      exact hsuf
    · rw [List.isSuffixOf_iff_suffix]
      exact List.suffix_append _ _

/-- C8 (counterexample).  On a settings file containing a
`dependencyResolutionManagement` construct without a nested `repositories`
block, the clause of the claim reading "otherwise the template is prepended
at the start" fails: the code instead inserts a synthesized repositories
block before the last closing brace of the file. -/
theorem c8_settings_injection_cex :
    append_repositories_to_settings c8NoReposInput defaultArtifactoryBase ≠
      (pyStrip (get_settings_template defaultArtifactoryBase) ++ ("\n\n").toList ++
        c8NoReposInput, true) ∧
    append_repositories_to_settings c8NoReposInput defaultArtifactoryBase =
      (c8NoReposInput.take 33 ++ ("\n    repositories \x7b").toList ++
        pyStrip SETTINGS_GRADLE_TEMPLATE ++ ("\n    \x7d\n").toList ++
        c8NoReposInput.drop 33, true) := by
  have happ : append_repositories_to_settings c8NoReposInput defaultArtifactoryBase =
      (c8NoReposInput.take 33 ++ ("\n    repositories \x7b").toList ++
        pyStrip SETTINGS_GRADLE_TEMPLATE ++ ("\n    \x7d\n").toList ++
        c8NoReposInput.drop 33, true) := by
    unfold append_repositories_to_settings
    rw [settings_template_default,
      if_neg (by rw [show isSubstrOf (normalize_base defaultArtifactoryBase) c8NoReposInput
        = false from by decide]; simp),
      if_pos (show isSubstrOf (("dependencyResolutionManagement").toList) c8NoReposInput
        = true from by decide),
      if_neg (by rw [show isSubstrOf (("repositories \x7b").toList) c8NoReposInput
        = false from by decide]; simp),
      show lastIdxSat c8NoReposInput (fun c => decide (c = '}')) = some 33 from by decide]
  refine ⟨?_, happ⟩
  rw [happ, settings_template_default]
  decide

/-- C8 (witness): the amended theorem applied to an already-migrated file
(no-op), a file with a nested repositories block (insertion before it), and a
plain file (prepend). -/
theorem c8_settings_injection_witness :
    append_repositories_to_settings c8PresentInput defaultArtifactoryBase =
      (c8PresentInput, false) ∧
    append_repositories_to_settings c8NestedInput defaultArtifactoryBase =
      (c8NestedInput.take 32 ++ pyStrip (get_settings_template defaultArtifactoryBase) ++
        ("\n\n").toList ++ ((c8NestedInput.take 37).drop 32) ++ c8NestedInput.drop 32,
        true) ∧
    append_repositories_to_settings c8PlainInput defaultArtifactoryBase =
      (pyStrip (get_settings_template defaultArtifactoryBase) ++ ("\n\n").toList ++
        c8PlainInput, true) := by
  refine ⟨?_, ?_, ?_⟩
  · exact (c8_settings_injection c8PresentInput defaultArtifactoryBase).1.mpr (by decide)
  · exact ((c8_settings_injection c8NestedInput defaultArtifactoryBase).2.1
      (by decide) (by decide) (by decide) 32 37 (by decide)).2.2
  · exact (c8_settings_injection c8PlainInput defaultArtifactoryBase).2.2.2.1
      (by decide) (by decide)

/-! ## Project classifier (`GradleProjectParser.detect_gradle_platform`,
gradle_parser.py:33-57) and the flow dispatch of `process_repo` -/

/-- First index at which `needle` occurs in the haystack. -/
def findSubAux (needle : List Char) : List Char → Nat → Option Nat
  | [], _ => none
  | hay@(_ :: rest), i =>
    if needle.isPrefixOf hay then some i else findSubAux needle rest (i + 1)

/-- Group 1 of the DOTALL search on pattern `\[versions\](.*?)(?=\[|\Z)`
(gradle_parser.py:33-57): the text between the first `[versions]` header and
the next `[` (or
end-of-text); `none` when there is no `[versions]` occurrence. -/
def findVersionsSection (cs : List Char) : Option (List Char) :=
  match findSubAux (("[versions]").toList) cs 0 with
  | none => none
  | some i =>
    some ((cs.drop (i + ("[versions]").toList.length)).takeWhile (fun c => decide (c ≠ '[')))

/-- Translation of `detect_gradle_platform`: `false` when `gradle/libs.versions.toml` does
not exist; otherwise `true` iff the marker `plasmaGradlePlugins` occurs
inside the `[versions]` section. -/
def detect_gradle_platform (catalogExists : Bool) (content : List Char) : Bool :=
  if catalogExists then
    match findVersionsSection content with
    | some seg => isSubstrOf (("plasmaGradlePlugins").toList) seg
    | none => false
  else false

/-- The three migration flows. -/
inductive Flow where
  | Platform
  | VersionCatalog
  | Standard
deriving DecidableEq, Repr

/-- Flow dispatch of `process_repo` (horizon_standard_migrator.py:249-354):
`is_platform` first, then `libs_toml_exists`, else Standard. -/
def classifyFlow (catalogExists : Bool) (content : List Char) : Flow :=
  if detect_gradle_platform catalogExists content then Flow.Platform
  else if catalogExists then Flow.VersionCatalog
  else Flow.Standard

/-- A catalog with the marker under `[versions]`. -/
def tomlPlatformInput : List Char :=
  ("[versions]\nplasmaGradlePlugins = 1.2.3\n[libraries]\nfoo = 1\n").toList

/-- A catalog without the marker anywhere. -/
def tomlNoMarkerInput : List Char :=
  ("[versions]\nfoo = 1\n[libraries]\nbar = 2\n").toList

/-- A catalog in which the marker occurs only under `[libraries]`. -/
def tomlMarkerOutsideInput : List Char :=
  ("[versions]\nfoo = 1\n[libraries]\nplasmaGradlePlugins = 9\n").toList

/-! ### Claim C6 -/

/-- C6.  Flow classification: no catalog file ⇒ Standard; catalog whose
`[versions]` section contains `plasmaGradlePlugins` ⇒ Platform; catalog whose
`[versions]` section lacks the marker (or which has no `[versions]` section)
⇒ VersionCatalog.  A marker occurrence outside the `[versions]` section does
not select Platform (concrete catalog with the marker only under
`[libraries]`), and marker-presence takes precedence over mere
catalog-presence. -/
theorem c6_flow_classification :
    (∀ content, classifyFlow false content = Flow.Standard) ∧
    (∀ content seg, findVersionsSection content = some seg →
      isSubstrOf (("plasmaGradlePlugins").toList) seg = true →
      classifyFlow true content = Flow.Platform) ∧
    (∀ content seg, findVersionsSection content = some seg →
      isSubstrOf (("plasmaGradlePlugins").toList) seg = false →
      classifyFlow true content = Flow.VersionCatalog) ∧
    (∀ content, findVersionsSection content = none →
      classifyFlow true content = Flow.VersionCatalog) ∧
    classifyFlow true tomlPlatformInput = Flow.Platform ∧
    classifyFlow true tomlNoMarkerInput = Flow.VersionCatalog ∧
    classifyFlow true tomlMarkerOutsideInput = Flow.VersionCatalog ∧
    detect_gradle_platform true tomlMarkerOutsideInput = false ∧
    classifyFlow false tomlPlatformInput = Flow.Standard := by
  refine ⟨?_, ?_, ?_, ?_, by decide, by decide, by decide, by decide, by decide⟩
  · intro content
    simp [classifyFlow, detect_gradle_platform]
  · intro content seg hsec hmark
    unfold classifyFlow detect_gradle_platform
    rw [if_pos rfl, hsec]
    simp
    exact hmark
  · intro content seg hsec hmark
    unfold classifyFlow detect_gradle_platform
    rw [if_pos rfl, hsec]
    simp
    exact hmark
  · intro content hsec
    unfold classifyFlow detect_gradle_platform
    rw [if_pos rfl, hsec]
    simp

/-- C6 (witness): the classification theorem applied to the marker-bearing
and marker-free catalogs. -/
theorem c6_flow_classification_witness :
    classifyFlow true tomlPlatformInput = Flow.Platform ∧
    classifyFlow true tomlNoMarkerInput = Flow.VersionCatalog := by
  refine ⟨c6_flow_classification.2.1 tomlPlatformInput
    (("\nplasmaGradlePlugins = 1.2.3\n").toList) (by decide) (by decide),
    c6_flow_classification.2.2.1 tomlNoMarkerInput
    (("\nfoo = 1\n").toList) (by decide) (by decide)⟩

/-! ## Verification gate (`verify_dependency_resolution`,
horizon_standard_migrator.py:570-603): the pure output-scanning core.

The subprocess invocation, environment construction and file writes are
collaborators; this models the classification of the captured output and the
composition of the log artifact. -/

/-- The fixed failure-indicating substrings. -/
def failurePatterns : List (List Char) :=
  [("UNRESOLVED |").toList, ("Could not resolve").toList, ("Could not find").toList,
    ("Could not get resource").toList, ("Failed to download").toList]

/-- Python `str.lower()` (ASCII, which is all the patterns use). -/
def lowerList (l : List Char) : List Char := l.map Char.toLower

/-- Test `any(p.lower() in low for p in patterns)` with `low = line.lower()`. -/
def lineMatches (line : List Char) : Bool :=
  failurePatterns.any (fun p => isSubstrOf (lowerList p) (lowerList line))

/-- Python line-boundary characters for `str.splitlines`. -/
def isPyLineBreak (c : Char) : Bool :=
  c = '\n' || c = '\r' || c = '\x0b' || c = '\x0c' || c = '\x1c' || c = '\x1d' ||
    c = '\x1e' || c = '\x85' || c = '\u2028' || c = '\u2029'

/-- Translation of `str.splitlines` (the accumulator holds the current line reversed). -/
def pySplitlinesAux (cur : List Char) : List Char → List (List Char)
  | [] => if cur = [] then [] else [cur.reverse]
  | '\r' :: '\n' :: rest => cur.reverse :: pySplitlinesAux [] rest
  | c :: rest =>
    if isPyLineBreak c then cur.reverse :: pySplitlinesAux [] rest
    else pySplitlinesAux (c :: cur) rest

/-- Translation of `combined.splitlines()`. -/
def pySplitlines (cs : List Char) : List (List Char) := pySplitlinesAux [] cs

/-- The dedup loop: collect the stripped form of every matching line, first
occurrence first, skipping lines already seen. -/
def collectUnresolved : List (List Char) → List (List Char) → List (List Char)
  | acc, [] => acc
  | acc, l :: rest =>
    if lineMatches l then
      if pyStrip l ∈ acc then collectUnresolved acc rest
      else collectUnresolved (acc ++ [pyStrip l]) rest
    else collectUnresolved acc rest

/-- Join with a newline separator. -/
def joinNl : List (List Char) → List Char
  | [] => []
  | [l] => l
  | l :: rest => l ++ '\n' :: joinNl rest

/-- The summary section rendered into the log artifact. -/
def summarySection (us : List (List Char)) : List Char :=
  ("=== Summary of unresolved dependencies ===\n").toList ++
    joinNl (us.map (fun u => '-' :: ' ' :: u)) ++ ("\n\n").toList

/-- Footer banner of the log artifact. -/
def footerLine : List Char := ("**************END*******************\n").toList

/-- Result of the output-scanning core: the boolean success, the deduplicated
unresolved summary entries, and the rendered log artifact text. -/
structure VerifyOutcome where
  success : Bool
  unresolved : List (List Char)
  logText : List Char
deriving DecidableEq, Repr

/-- Pure core of `verify_dependency_resolution`: `combined` is
`stdout + "\n" + stderr`; success is keyed off the exit code alone; the log
is `header + command lines + summary + combined + "\n" + footer`. -/
def verify_dependency_resolution (returncode : Int)
    (stdout stderr header cmdLine : List Char) : VerifyOutcome :=
  let combined := stdout ++ '\n' :: stderr
  let unresolved := collectUnresolved [] (pySplitlines combined)
  { success := decide (returncode = 0)
    unresolved := unresolved
    logText := header ++ cmdLine ++
      (if unresolved = [] then [] else summarySection unresolved) ++
      combined ++ '\n' :: footerLine }

theorem collectUnresolved_nodup :
    ∀ (lines acc : List (List Char)), acc.Nodup → (collectUnresolved acc lines).Nodup := by
  intro lines
  induction lines with
  | nil => intro acc h; exact h
  | cons l rest ih =>
    intro acc h
    unfold collectUnresolved
    split
    · split
      · exact ih acc h
      · rename_i hmem
        refine ih _ ?_
        simp [List.nodup_append, h, hmem]
    · exact ih acc h

theorem collectUnresolved_mem :
    ∀ (lines acc : List (List Char)) (x : List Char),
      x ∈ collectUnresolved acc lines ↔
        x ∈ acc ∨ ∃ l, l ∈ lines ∧ lineMatches l = true ∧ pyStrip l = x := by
  intro lines
  induction lines with
  | nil =>
    intro acc x
    simp [collectUnresolved]
  | cons l rest ih =>
    intro acc x
    unfold collectUnresolved
    split
    · rename_i hl
      split
      · rename_i hmem
        rw [ih]
        constructor
        · rintro (hx | ⟨l0, h1, h2, h3⟩)
          · exact Or.inl hx
          · exact Or.inr ⟨l0, List.mem_cons_of_mem l h1, h2, h3⟩
        · rintro (hx | ⟨l0, h1, h2, h3⟩)
          · exact Or.inl hx
          · rcases List.mem_cons.mp h1 with rfl | h1r
            · exact Or.inl (h3 ▸ hmem)
            · exact Or.inr ⟨l0, h1r, h2, h3⟩
      · rename_i hmem
        rw [ih]
        constructor
        · rintro (hx | ⟨l0, h1, h2, h3⟩)
          · rcases List.mem_append.mp hx with hx1 | hx2
            · exact Or.inl hx1
            · refine Or.inr ⟨l, List.mem_cons_self l rest, hl, ?_⟩
              exact (List.mem_singleton.mp hx2).symm
          · exact Or.inr ⟨l0, List.mem_cons_of_mem l h1, h2, h3⟩
        · rintro (hx | ⟨l0, h1, h2, h3⟩)
          · exact Or.inl (List.mem_append.mpr (Or.inl hx))
          · rcases List.mem_cons.mp h1 with rfl | h1r
            · exact Or.inl (List.mem_append.mpr (Or.inr (by simp [h3])))
            · exact Or.inr ⟨l0, h1r, h2, h3⟩
    · rename_i hl
      rw [ih]
      constructor
      · rintro (hx | ⟨l0, h1, h2, h3⟩)
        · exact Or.inl hx
        · exact Or.inr ⟨l0, List.mem_cons_of_mem l h1, h2, h3⟩
      · rintro (hx | ⟨l0, h1, h2, h3⟩)
        · exact Or.inl hx
        · rcases List.mem_cons.mp h1 with rfl | h1r
          · exact absurd h2 (by simpa using hl)
          · exact Or.inr ⟨l0, h1r, h2, h3⟩

/-! ### Claim C9 -/

/-- C9.  `verify_dependency_resolution` returns success exactly when the
external build process exits with return code 0; independently, the
deduplicated unresolved summary contains exactly the stripped forms of the
output lines matching one of the fixed case-insensitive failure substrings,
and the log artifact is header, command lines, summary section (absent when
no line matched), the combined output and the footer — matching lines never
flip a zero-exit-code success to false. -/
theorem c9_verification_gate (rc : Int) (out err header cmdLine : List Char) :
    ((verify_dependency_resolution rc out err header cmdLine).success = true ↔ rc = 0) ∧
    (verify_dependency_resolution rc out err header cmdLine).unresolved.Nodup ∧
    (∀ x, x ∈ (verify_dependency_resolution rc out err header cmdLine).unresolved ↔
      ∃ l, l ∈ pySplitlines (out ++ '\n' :: err) ∧ lineMatches l = true ∧ pyStrip l = x) ∧
    (verify_dependency_resolution rc out err header cmdLine).logText =
      header ++ cmdLine ++
        (if (verify_dependency_resolution rc out err header cmdLine).unresolved = [] then []
         else summarySection
           (verify_dependency_resolution rc out err header cmdLine).unresolved) ++
        (out ++ '\n' :: err) ++ '\n' :: footerLine := by
  refine ⟨?_, ?_, ?_, rfl⟩
  · simp [verify_dependency_resolution]
  · exact collectUnresolved_nodup _ [] List.nodup_nil
  · intro x
    rw [show (verify_dependency_resolution rc out err header cmdLine).unresolved =
      collectUnresolved [] (pySplitlines (out ++ '\n' :: err)) from rfl]
    rw [collectUnresolved_mem]
    simp

end Migration
